import Mathlib

/-!
Verification development for the RSS music-site feed registry and
album-resolution pipeline.

The definitions below are shallow embeddings of the TypeScript sources:

* character / string helpers model the JavaScript string methods used by
  the code (ASCII fragment: every string handled by the pipeline is ASCII
  except the en-dash used by the title splitter, which is modelled
  explicitly);
* `generateSlug` / `generateAlbumSlug` embed src/lib/url-utils;
* `FeedManager` embeds src/lib/feed-manager.ts;
* `FeedsManager` embeds src/lib/feeds-manager.ts;
* `BuildRss` embeds the publisher-discovery loop of
  src/scripts/build-rss-data.ts;
* `AlbumsService` embeds src/lib/albums-service.ts;
* `AlbumRoute` embeds the single-album API route.

Network and file-system collaborators (RSSParser, the static snapshot
files, the registry file) are passed in as explicit oracle values, and
the clock is an explicit parameter, so every definition is executable.
-/

/-- ASCII uppercase letter, the `A-Z` class of the source regexes. -/
def isAsciiUpper (c : Char) : Bool := 65 ≤ c.toNat && c.toNat ≤ 90

/-- ASCII lowercase letter, the `a-z` class of the source regexes. -/
def isAsciiLower (c : Char) : Bool := 97 ≤ c.toNat && c.toNat ≤ 122

/-- ASCII digit, the `0-9` class of the source regexes. -/
def isAsciiDigit (c : Char) : Bool := 48 ≤ c.toNat && c.toNat ≤ 57

/-- The `a-zA-Z0-9` class used by `replace(/[^a-zA-Z0-9]/g, '-')`. -/
def isAsciiAlnum (c : Char) : Bool := isAsciiUpper c || isAsciiLower c || isAsciiDigit c

/-- JavaScript `toLowerCase` on one character (ASCII fragment). -/
def jsToLower (c : Char) : Char :=
  if isAsciiUpper c then Char.ofNat (c.toNat + 32) else c

/-- JavaScript `toUpperCase` on one character (ASCII fragment). -/
def jsToUpper (c : Char) : Char :=
  if isAsciiLower c then Char.ofNat (c.toNat - 32) else c

/-- JavaScript `toLowerCase` on a string (ASCII fragment). -/
def jsToLowerStr (s : String) : String := String.mk (s.toList.map jsToLower)

/-- The JavaScript regex class `\s` (ASCII fragment: space, tab, newline,
carriage return, vertical tab, form feed). -/
def jsIsSpace (c : Char) : Bool :=
  c = ' ' || c = '\t' || c = '\n' || c = '\r' || c.toNat = 11 || c.toNat = 12

/-- The JavaScript regex class `\w` (`[A-Za-z0-9_]`). -/
def isWordChar (c : Char) : Bool := isAsciiAlnum c || c = '_'

/-- One character of `replace(/[^a-zA-Z0-9]/g, '-').toLowerCase()`:
alphanumerics are lowercased, everything else becomes a hyphen. -/
def normChar (c : Char) : Char := if isAsciiAlnum c then jsToLower c else '-'

/-- `replace(/p+/g, r)`: every maximal run of characters satisfying `p`
is replaced by the single character `r`. -/
def replaceRuns (p : Char → Bool) (r : Char) : List Char → List Char
  | [] => []
  | [c] => if p c then [r] else [c]
  | c :: d :: rest =>
    if p c && p d then replaceRuns p r (d :: rest)
    else (if p c then r else c) :: replaceRuns p r (d :: rest)

/-- `replace(/[-]+/g, '-')` (written with a bracket class here): collapse
hyphen runs to a single hyphen. -/
def collapseDashes : List Char → List Char := replaceRuns (fun c => c = '-') '-'

/-- Drop the maximal run of characters satisfying `p` from the end. -/
def dropTrailWhile (p : Char → Bool) : List Char → List Char
  | [] => []
  | c :: rest =>
    let t := dropTrailWhile p rest
    if t = [] && p c then [] else c :: t

/-- JavaScript `trim()` (ASCII whitespace fragment). -/
def jsTrim (l : List Char) : List Char := dropTrailWhile jsIsSpace (l.dropWhile jsIsSpace)

/-- `replace(/^-+|-+$/g, '')`: remove all leading and trailing hyphens. -/
def trimDashesBoth (l : List Char) : List Char :=
  dropTrailWhile (fun c => c = '-') (l.dropWhile (fun c => c = '-'))

/-- Remove a single leading hyphen, the `^-` alternative of `/^-|-$/g`. -/
def dropOneLeadDash : List Char → List Char
  | [] => []
  | c :: rest => if c = '-' then rest else c :: rest

/-- Remove a single trailing hyphen, the `-$` alternative of `/^-|-$/g`. -/
def dropOneTrailDash : List Char → List Char
  | [] => []
  | [c] => if c = '-' then [] else [c]
  | c :: rest => c :: dropOneTrailDash rest

/-- `replace(/^-|-$/g, '')`: remove one leading and one trailing hyphen. -/
def stripDash (l : List Char) : List Char := dropOneTrailDash (dropOneLeadDash l)

/-- The apostrophe character, kept out of string literals for hygiene. -/
def apos : Char := Char.ofNat 39

/-- The en-dash accepted by the title splitter `split(/\s*[-–]\s*/)`. -/
def enDash : Char := Char.ofNat 8211

/-- Helper to splice an apostrophe into the special-case titles below. -/
def withApos (a b : String) : String := a ++ String.mk [apos] ++ b

/-- The hand-maintained special-case table of `generateAlbumSlug`
(src/lib/url-utils), keyed by the lowercased, trimmed title. -/
def specialCaseSlugs : List (String × String) :=
  [ ("bitpunk.fm", "bitpunkfm")
  , ("dead time(live 2016)", "dead-timelive-2016")
  , (withApos "let go (what" "s holding you back)", "let-go-whats-holding-you-back")
  , (withApos "they don" "t know", "they-dont-know")
  , ("underwater - single", "underwater-single")
  , ("unsound existence (self-hosted version)", "unsound-existence-self-hosted-version")
  , ("you feel like home(single)", "you-feel-like-homesingle")
  , ("the kid, the dad, the mom & the tiny window", "the-kid-the-dad-the-mom-and-the-tiny-window")
  , (withApos "don" "t worry, you still have time to ruin it - demo", "dont-worry-you-still-have-time-to-ruin-it-demo")
  , ("fake love - demo", "fake-love-demo")
  , ("roommates - demo", "roommates-demo")
  , ("orange pill, pink pill, white pill - demo", "orange-pill-pink-pill-white-pill-demo")
  , ("strangers to lovers - live from sloe flower studio", "strangers-to-lovers-live-from-sloe-flower-studio")
  , (withApos "can" "t promise you the world - live from sloe flower studio", "cant-promise-you-the-world-live-from-sloe-flower-studio")
  , (withApos "heycitizen" "s lo-fi hip-hop beats to study and relax to", "heycitizens-lo-fi-hip-hop-beats-to-study-and-relax-to")
  , ("fountain artist takeover - nate johnivan", "fountain-artist-takeover-nate-johnivan")
  , (withApos (withApos "rock" "n") "roll breakheart", "rocknroll-breakheart")
  , ("thankful (feat. witt lowry)", "thankful-feat-witt-lowry")
  , ("bitpunk.fm unwound", "bitpunkfm-unwound")
  , ("aged friends & old whiskey", "aged-friends-and-old-whiskey") ]

/-- `generateSlug` from src/lib/url-utils: lowercase, drop everything
outside `\w`, `\s` and `-`, turn whitespace runs into hyphens, collapse
hyphen runs, trim hyphens from both ends. -/
def generateSlug (text : String) : String :=
  if text = "" then ""
  else
    let step1 := text.toList.map jsToLower
    let step2 := step1.filter (fun c => isWordChar c || jsIsSpace c || c = '-')
    let step3 := replaceRuns jsIsSpace '-' step2
    let step4 := collapseDashes step3
    String.mk (trimDashesBoth step4)

/-- `generateAlbumSlug` from src/lib/url-utils.  `nowMs` stands for the
`Date.now()` read in the empty-slug fallback. -/
def generateAlbumSlug (nowMs : Nat) (title : String) : String :=
  let lowerTitle := String.mk (jsTrim (title.toList.map jsToLower))
  match specialCaseSlugs.lookup lowerTitle with
  | some s => s
  | none =>
    let l0 := jsTrim (title.toList.map jsToLower)
    let l1 := l0.flatMap (fun c => if c = '&' then "and".toList else [c])
    let l2 := l1.flatMap (fun c => if c = '+' then "plus".toList else [c])
    let l3 := l2.flatMap (fun c => if c = '@' then "at".toList else [c])
    let l4 := l3.filter (fun c => isAsciiLower c || isAsciiDigit c || jsIsSpace c || c = '-')
    let l5 := replaceRuns jsIsSpace ' ' l4
    let l6 := l5.map (fun c => if jsIsSpace c then '-' else c)
    let l7 := collapseDashes l6
    let l8 := stripDash l7
    if l8 = [] then "album-" ++ toString nowMs else String.mk l8

/-- First element of `title.split(/\s*[-–]\s*/)`: the part before the
first hyphen or en-dash, with the whitespace run preceding that dash
stripped (the whole string when no dash occurs). -/
def baseTitleSegment (l : List Char) : List Char :=
  let pre := l.takeWhile (fun c => ¬(c = '-' || c = enDash))
  if pre.length = l.length then pre else dropTrailWhile jsIsSpace pre

/-- Host and path of a parsed URL, the two components the code reads off
the platform `URL` constructor. -/
structure URLParts where
  host : String
  pathname : String
deriving DecidableEq, Repr

/-- The platform `URL` constructor, modelled for plain absolute http(s)
URLs (no credentials and no port, which the registry URLs never carry);
`none` models the `TypeError` thrown on any other input. -/
def jsURL (url : String) : Option URLParts :=
  let l := url.toList
  let parseAfter : List Char → Option URLParts := fun rest =>
    let host := rest.takeWhile (fun c => ¬(c = '/' || c = '?' || c = '#' || c = ':'))
    let path := (rest.drop host.length).takeWhile (fun c => ¬(c = '?' || c = '#'))
    if host = [] then none
    else some { host := String.mk (host.map jsToLower)
              , pathname := if path.head? = some '/' then String.mk path else "/" }
  if l.take 8 = "https://".toList then parseAfter (l.drop 8)
  else if l.take 7 = "http://".toList then parseAfter (l.drop 7)
  else none

/-- `Feed.type` from src/lib/feed-manager.ts. -/
inductive FeedType where
  | album
  | publisher
deriving DecidableEq, Repr

/-- `Feed.priority` from src/lib/feed-manager.ts. -/
inductive FeedPriority where
  | core
  | extended
  | low
deriving DecidableEq, Repr

/-- `Feed.status` from src/lib/feed-manager.ts. -/
inductive FeedStatus where
  | active
  | inactive
deriving DecidableEq, Repr

/-- `Feed.source` from src/lib/feed-manager.ts. -/
inductive FeedSource where
  | manual
  | recursive
deriving DecidableEq, Repr

/-- The `Feed` interface shared by feed-manager.ts and feeds-manager.ts. -/
structure Feed where
  id : String
  originalUrl : String
  type : FeedType
  title : String
  priority : FeedPriority
  status : FeedStatus
  addedAt : String
  lastUpdated : String
  source : Option FeedSource := none
  discoveredFrom : Option String := none
deriving DecidableEq, Repr

/-- The `FeedsData` interface of feed-manager.ts.  `lastUpdated` and
`version` are optional because the format-1 branch of `loadFeeds` casts
the parsed JSON without filling either field in. -/
structure FeedsData where
  feeds : List Feed
  lastUpdated : Option String
  version : Option Nat
deriving DecidableEq, Repr

/-- The JSON document found in data/feeds.json, as discriminated by
`FeedManager.loadFeeds`: the canonical object, a bare feed-object array,
a bare URL-string array, any other JSON value, a missing file, or an
unreadable/corrupt file. -/
inductive RegistryFile where
  | missing
  | corrupt
  | objectDoc (feeds : List Feed) (lastUpdated : Option String) (version : Option Nat)
  | feedArrayDoc (feeds : List Feed)
  | urlArrayDoc (urls : List String)
  | otherDoc
deriving Repr

/-- The JSON value written back to data/feeds.json by a mutating
operation: feed-manager.ts writes an object document, feeds-manager.ts
writes a bare array of URL strings.  A field holding `none` corresponds
to a JavaScript `undefined`, which `JSON.stringify` drops. -/
inductive WrittenDoc where
  | objectShape (feeds : List Feed) (lastUpdated : Option String) (version : Option Nat)
  | urlArrayShape (urls : List String)
deriving DecidableEq, Repr

/-- The canonical registry shape of the spec:
an object `{feeds, lastUpdated, version}` with both stamps present. -/
def isCanonicalShape : WrittenDoc → Bool
  | .objectShape _ lastUpdated version => lastUpdated.isSome && version.isSome
  | .urlArrayShape _ => false

namespace FeedManager

/-- The URL-to-feed conversion inlined in the bare-URL branch of
`FeedManager.loadFeeds` (feed-manager.ts line 76): derive the id, infer
the title from the hostname, default everything else.  `none` models the
`TypeError` of `new URL(url)` on an unparsable URL, which the outer
catch of `loadFeeds` turns into the empty registry. -/
def loadFeedFromUrl (now : String) (url : String) : Option Feed :=
  let feedId := String.mk ((stripDash (collapseDashes (url.toList.map normChar))).take 200)
  (jsURL url).map (fun parts =>
    { id := feedId
    , originalUrl := url
    , type := .album
    , title := "Feed from " ++ parts.host
    , priority := .core
    , status := .active
    , addedAt := now
    , lastUpdated := now
    , source := some .manual })

/-- The id derivation of the bare-URL branch of `FeedManager.loadFeeds`:
`url.replace(/[^a-zA-Z0-9]/g, '-').toLowerCase().replace(/[-]+/g,
'-').replace(/^-|-$/g, '').substring(0, 200)` (note that the length cap
is applied after the hyphen trim). -/
def deriveId (url : String) : String :=
  String.mk ((stripDash (collapseDashes (url.toList.map normChar))).take 200)

/-- `FeedManager.loadFeeds`: tolerate the three historical registry
shapes, fall back to the empty registry on a missing, corrupt or
unexpected file.  `now` stands for the `new Date().toISOString()` reads. -/
def loadFeeds (file : RegistryFile) (now : String) : FeedsData :=
  let fallback : FeedsData := { feeds := [], lastUpdated := some now, version := some 1 }
  match file with
  | .missing => fallback
  | .corrupt => fallback
  | .objectDoc feeds lastUpdated version =>
    { feeds := feeds, lastUpdated := lastUpdated, version := version }
  | .feedArrayDoc feeds => { feeds := feeds, lastUpdated := some now, version := some 1 }
  | .urlArrayDoc urls =>
    if urls.isEmpty then
      -- an empty JSON array fails the string-first test and is handled
      -- by the feed-object branch
      { feeds := [], lastUpdated := some now, version := some 1 }
    else
      match urls.mapM (loadFeedFromUrl now) with
      | some feeds => { feeds := feeds, lastUpdated := some now, version := some 1 }
      | none => fallback
  | .otherDoc => fallback

/-- `FeedManager.getActiveFeeds`: the active records of the registry. -/
def getActiveFeeds (feeds : List Feed) : List Feed :=
  feeds.filter (fun f => f.status = .active)

/-- The argument of `FeedManager.addFeed`: a `Feed` without the
timestamp fields, which `addFeed` stamps itself. -/
structure NewFeed where
  id : String
  originalUrl : String
  type : FeedType
  title : String
  priority : FeedPriority
  status : FeedStatus
  source : Option FeedSource := none
  discoveredFrom : Option String := none
deriving DecidableEq, Repr

/-- Stamp a `NewFeed` with `addedAt` and `lastUpdated`. -/
def NewFeed.stamp (nf : NewFeed) (now : String) : Feed :=
  { id := nf.id
  , originalUrl := nf.originalUrl
  , type := nf.type
  , title := nf.title
  , priority := nf.priority
  , status := nf.status
  , addedAt := now
  , lastUpdated := now
  , source := nf.source
  , discoveredFrom := nf.discoveredFrom }

/-- `FeedManager.addFeed`: append the stamped feed, restamp the registry
and write it back.  There is no duplicate check.  The returned value is
both the written document content and the refreshed in-memory cache. -/
def addFeed (data : FeedsData) (nf : NewFeed) (now : String) : FeedsData :=
  { feeds := data.feeds ++ [nf.stamp now]
  , lastUpdated := some now
  , version := data.version }

/-- The JSON shape `FeedManager.addFeed` writes to disk. -/
def addFeedWrite (data : FeedsData) (nf : NewFeed) (now : String) : WrittenDoc :=
  .objectShape (addFeed data nf now).feeds (some now) data.version

/-- `FeedManager.removeFeed`: keep the records whose id differs, restamp
and write back — unconditionally, whether or not anything matched. -/
def removeFeed (data : FeedsData) (id : String) (now : String) : FeedsData :=
  { feeds := data.feeds.filter (fun f => ¬ f.id = id)
  , lastUpdated := some now
  , version := data.version }

/-- The JSON shape `FeedManager.removeFeed` writes to disk (a write
always happens, even when no record matched). -/
def removeFeedWrite (data : FeedsData) (id : String) (now : String) : WrittenDoc :=
  .objectShape (removeFeed data id now).feeds (some now) data.version

/-- The `Partial<Feed>` patch accepted by `FeedManager.updateFeed`. -/
structure FeedPatch where
  id : Option String := none
  originalUrl : Option String := none
  type : Option FeedType := none
  title : Option String := none
  priority : Option FeedPriority := none
  status : Option FeedStatus := none
  addedAt : Option String := none
  lastUpdated : Option String := none
  source : Option (Option FeedSource) := none
  discoveredFrom : Option (Option String) := none
deriving DecidableEq, Repr

/-- The spread `{...feed, ...updates, lastUpdated: now}` of
`FeedManager.updateFeed`. -/
def FeedPatch.apply (p : FeedPatch) (f : Feed) (now : String) : Feed :=
  { id := p.id.getD f.id
  , originalUrl := p.originalUrl.getD f.originalUrl
  , type := p.type.getD f.type
  , title := p.title.getD f.title
  , priority := p.priority.getD f.priority
  , status := p.status.getD f.status
  , addedAt := p.addedAt.getD f.addedAt
  , lastUpdated := now
  , source := p.source.getD f.source
  , discoveredFrom := p.discoveredFrom.getD f.discoveredFrom }

/-- `FeedManager.updateFeed`: merge the patch into the first record with
the given id, restamp and write; silently do nothing when no record
matches (no write at all in that case). -/
def updateFeed (data : FeedsData) (id : String) (p : FeedPatch) (now : String) :
    FeedsData × Option WrittenDoc :=
  if (data.feeds.find? (fun f => f.id = id)).isSome then
    let feeds := data.feeds.map (fun f => if f.id = id then p.apply f now else f)
    let data2 : FeedsData := { feeds := feeds, lastUpdated := some now, version := data.version }
    (data2, some (.objectShape feeds (some now) data.version))
  else (data, none)

/-- The body of the reclassification loop of
`FeedManager.detectAndUpdateFeedTypes`: flip the type of a still-default
active album record whose detected type differs; a detection failure
(`none`) leaves the record untouched. -/
def flipFeedType (detect : String → Option FeedType) (now : String) (f : Feed) : Feed :=
  if f.type = .album ∧ f.status = .active then
    match detect f.originalUrl with
    | some t => if ¬ t = f.type then { f with type := t, lastUpdated := now } else f
    | none => f
  else f

/-- `FeedManager.detectAndUpdateFeedTypes`: run the type detector over
the still-default active album records (`flipFeedType` is the body of
that loop), and - when anything changed - save in the explicitly
canonicalised shape with `version` defaulted to 1. -/
def detectAndUpdateFeedTypes (data : FeedsData)
    (detect : String → Option FeedType) (now : String) :
    FeedsData × Option WrittenDoc :=
  if data.feeds.map (flipFeedType detect now) = data.feeds then (data, none)
  else
    ({ feeds := data.feeds.map (flipFeedType detect now)
     , lastUpdated := some now
     , version := some (data.version.getD 1) }
    , some (.objectShape (data.feeds.map (flipFeedType detect now)) (some now)
        (some (data.version.getD 1))))

end FeedManager

namespace FeedsManager

/-- The id derivation of `urlToFeed` (feeds-manager.ts lines 63-68):
replace non-alphanumerics with hyphens, lowercase, collapse hyphen runs,
strip one leading/trailing hyphen, and — only when longer than 200 —
truncate and drop the one hyphen the cut may expose. -/
def urlToFeedId (url : String) : String :=
  let collapsed := stripDash (collapseDashes (url.toList.map normChar))
  if collapsed.length > 200 then String.mk (dropOneTrailDash (collapsed.take 200))
  else String.mk collapsed

/-- JavaScript `split(sep)` on a character list (kernel-reducible
replacement for the platform `String.split`). -/
def splitChar (sep : Char) : List Char → List (List Char)
  | [] => [[]]
  | c :: rest =>
    let r := splitChar sep rest
    if c = sep then [] :: r
    else (c :: r.headD []) :: r.tail

/-- `.replace(/\.(xml|rss)$/i, '')` of `urlToFeed`. -/
def stripXmlRssExt (s : String) : String :=
  let l := s.toList
  let ext := (l.drop (l.length - 4)).map jsToLower
  if l.length ≥ 4 && (ext = ".xml".toList || ext = ".rss".toList) then
    String.mk (l.take (l.length - 4))
  else s

/-- `.replace(/\b\w/g, l => l.toUpperCase())` of `urlToFeed`: uppercase
every word character that starts a word. -/
def titleCase (s : String) : String :=
  let rec go : Option Char → List Char → List Char
    | _, [] => []
    | prev, c :: rest =>
      let boundary := match prev with
        | none => true
        | some p => ¬ isWordChar p
      (if isWordChar c && boundary then jsToUpper c else c) :: go (some c) rest
  String.mk (go none s.toList)

/-- `urlToFeed` from feeds-manager.ts: derive the id, infer a readable
title from the last path segment (falling back to the hostname), default
the rest.  `none` models the `TypeError` of `new URL(url)`, which occurs
outside any local try/catch and therefore propagates to the caller. -/
def urlToFeed (now : String) (url : String) : Option Feed :=
  let feedId := urlToFeedId url
  (jsURL url).map (fun parts =>
    let defaultTitle := "Feed from " ++ parts.host
    let pathParts := ((splitChar '/' parts.pathname.toList).map String.mk).filter (fun p => ¬ p = "")
    let title := match pathParts.getLast? with
      | none => defaultTitle
      | some lastPart =>
        let nameWithoutExt := stripXmlRssExt lastPart
        if nameWithoutExt = "" then defaultTitle
        else titleCase (String.mk (nameWithoutExt.toList.map (fun c => if c = '-' then ' ' else c)))
    { id := feedId
    , originalUrl := url
    , type := .album
    , title := title
    , priority := .core
    , status := .active
    , addedAt := now
    , lastUpdated := now
    , source := some .manual })

/-- `getAllFeeds` from feeds-manager.ts, on a bare-URL registry file:
convert every stored URL to a `Feed`.  A single unparsable URL makes the
whole call throw (`none`). -/
def getAllFeeds (now : String) : List String → Option (List Feed)
  | [] => some []
  | u :: rest =>
    match urlToFeed now u, getAllFeeds now rest with
    | some f, some fs => some (f :: fs)
    | _, _ => none

/-- The result object returned by `addFeed`/`removeFeed` in
feeds-manager.ts. -/
structure OpResult where
  success : Bool
  error : Option String := none
  feed : Option Feed := none
deriving DecidableEq, Repr

/-- `addFeed` from feeds-manager.ts, acting on a bare-URL registry:
reject an already-present URL, otherwise append and write.  When the
returned `Feed` cannot be built because the URL does not parse, the
exception is caught *after* the write, so the file keeps the new URL
while the caller sees a failure. -/
def addFeed (now : String) (urls : List String) (url : String) : OpResult × List String :=
  if urls.contains url then
    ({ success := false, error := some "Feed already exists" }, urls)
  else
    let stored := urls ++ [url]
    match urlToFeed now url with
    | some f => ({ success := true, feed := some f }, stored)
    | none => ({ success := false, error := some "Invalid URL" }, stored)

/-- The JSON shape `writeFeedsFile` writes: a bare array of URL strings. -/
def writeFeedsFileDoc (urls : List String) : WrittenDoc := .urlArrayShape urls

/-- `removeFeed` from feeds-manager.ts: drop every URL whose derived
feed id matches; report `Feed not found` — without writing — when
nothing matched.  An unparsable URL in the registry makes the filter
throw, which the catch turns into a failure result (again no write). -/
def removeFeed (now : String) (urls : List String) (feedId : String) : OpResult × List String :=
  if urls.any (fun u => (jsURL u).isNone) then
    ({ success := false, error := some "Invalid URL" }, urls)
  else
    let filtered := urls.filter (fun u =>
      match urlToFeed now u with
      | some f => ¬ f.id = feedId
      | none => true)
    if filtered.length = urls.length then
      ({ success := false, error := some "Feed not found" }, urls)
    else ({ success := true }, filtered)

end FeedsManager

namespace BuildRss

/-- One `remoteItem` of a parsed publisher feed (the
`PublisherManifestItem` of the spec).  An absent/falsy string field is
modelled by the empty string. -/
structure PublisherItem where
  feedUrl : String
  feedGuid : String
  title : String
  medium : String
deriving DecidableEq, Repr

/-- The discovered-feed id derivation of build-rss-data.ts line 92:
`feedUrl.replace(/[^a-zA-Z0-9]/g, '-').toLowerCase().substring(0, 200)`
— no hyphen collapsing and no trimming. -/
def deriveId (url : String) : String :=
  String.mk ((url.toList.map normChar).take 200)

/-- `item.title || Feed from <hostname>`: the title of a discovered
feed.  `none` models the `TypeError` of `new URL(item.feedUrl)` when the
item carries no title, which aborts the current publisher feed. -/
def discoveredTitle (item : PublisherItem) : Option String :=
  if ¬ item.title = "" then some item.title
  else (jsURL item.feedUrl).map (fun parts => "Feed from " ++ parts.host)

/-- The `FeedManager.addFeed` argument built for a discovered item. -/
def mkDiscoveredFeed (now pubUrl : String) (item : PublisherItem) (title : String) : Feed :=
  { id := if ¬ item.feedGuid = "" then item.feedGuid else deriveId item.feedUrl
  , originalUrl := item.feedUrl
  , type := .album
  , title := title
  , priority := .extended
  , status := .active
  , addedAt := now
  , lastUpdated := now
  , source := some .recursive
  , discoveredFrom := some pubUrl }

/-- The originalUrls of the active records, the `existingUrls` seed of
the discovery loop. -/
def activeUrls (feeds : List Feed) : List String :=
  (FeedManager.getActiveFeeds feeds).map (fun f => f.originalUrl)

/-- The inner item loop of the publisher-discovery pass
(build-rss-data.ts lines 85-105): register each not-yet-seen music item
and extend the seen set; a title-derivation throw aborts the remaining
items of this publisher feed (caught by the per-publisher catch). -/
def discoverItems (now pubUrl : String) :
    List PublisherItem → List Feed → List String → List Feed × List String
  | [], feeds, seen => (feeds, seen)
  | item :: rest, feeds, seen =>
    if ¬ item.feedUrl = "" ∧ item.medium = "music" ∧ ¬ seen.contains item.feedUrl then
      match discoveredTitle item with
      | some title =>
        discoverItems now pubUrl rest (feeds ++ [mkDiscoveredFeed now pubUrl item title])
          (item.feedUrl :: seen)
      | none => (feeds, seen)
    else discoverItems now pubUrl rest feeds seen

/-- One publisher-discovery pass over one publisher feed: seed the seen
set from the active registry and run the item loop. -/
def discover (now pubUrl : String) (items : List PublisherItem) (feeds : List Feed) :
    List Feed :=
  (discoverItems now pubUrl items feeds (activeUrls feeds)).1

/-- The number of registry records carrying a given originalUrl. -/
def countUrl (feeds : List Feed) (u : String) : Nat :=
  (feeds.filter (fun f => f.originalUrl = u)).length

/-- An item the discovery loop registers when unseen: a nonempty
`feedUrl` with `medium === 'music'`. -/
def eligible (item : PublisherItem) : Prop :=
  ¬ item.feedUrl = "" ∧ item.medium = "music"

instance (item : PublisherItem) : Decidable (eligible item) := by
  unfold eligible; infer_instance

end BuildRss

/-- The normalized output of `RSSParser.parseAlbumFeed` consumed by this
core.  Only the title is inspected by the resolution/aggregation logic;
the remaining payload is opaque to it. -/
structure ParsedAlbum where
  title : String
deriving DecidableEq, Repr

/-- One outcome of a `RSSParser.parseAlbumFeed` call (including its
timeout race): a parsed album, a null result, or a thrown error. -/
inductive ParseOutcome where
  | ok (a : ParsedAlbum)
  | nodata
  | err (msg : String)
deriving DecidableEq, Repr

/-- An album as served to callers: the parsed payload enriched with the
feed metadata that the aggregation/route code spreads in. -/
structure Album where
  title : String
  feedId : String
  feedUrl : String
  lastUpdated : String
deriving DecidableEq, Repr

/-- `{...albumData, feedId, feedUrl, lastUpdated}`. -/
def enrichAlbum (a : ParsedAlbum) (f : Feed) : Album :=
  { title := a.title, feedId := f.id, feedUrl := f.originalUrl, lastUpdated := f.lastUpdated }

/-- One entry of the `errors` list of an aggregation result. -/
structure FeedError where
  feedId : String
  error : String
deriving DecidableEq, Repr

namespace AlbumsService

/-- The `AlbumsDataSource` union of albums-service.ts. -/
inductive DataSource where
  | static
  | staticCached
  | dynamic
  | database
  | auto
deriving DecidableEq, Repr

/-- `AlbumsFetchOptions` with its TypeScript defaults. -/
structure FetchOptions where
  source : DataSource := .auto
  forceRegenerate : Bool := false
  clearCache : Bool := false
  priority : Option FeedPriority := none
  includeErrors : Bool := true
deriving DecidableEq, Repr

/-- `AlbumsResult`.  `timestamp` abstracts the ISO string as the clock
value it renders; an `Option` field holding `none` is an absent
(`undefined`) field of the result object. -/
structure AlbumsResult where
  albums : List Album
  count : Nat
  errors : Option (List FeedError) := none
  timestamp : Nat
  source : Option String := none
  cached : Option Bool := none
  static : Option Bool := none
  fallback : Option Bool := none
  cacheAge : Option Nat := none
deriving DecidableEq, Repr

/-- The module-level mutable cache of `AlbumsService`. -/
structure ServiceState where
  memoryCache : Option AlbumsResult
  cacheTimestamp : Nat
deriving DecidableEq, Repr

/-- The process state before any aggregation ran. -/
def ServiceState.initial : ServiceState := { memoryCache := none, cacheTimestamp := 0 }

/-- The collaborators of `AlbumsService`, passed explicitly: the
registry behind `FeedManager`, the bare-URL registry behind
feeds-manager, the two static snapshot files (`none` = unavailable /
unreadable) and the `RSSParser.parseAlbumFeed` oracle. -/
structure ServiceEnv where
  registry : List Feed
  dbUrls : List String
  staticAlbums : Option (List Album)
  staticCachedAlbums : Option (List Album)
  parse : String → ParseOutcome

/-- `CACHE_TTL`: five minutes in milliseconds. -/
def CACHE_TTL : Nat := 5 * 60 * 1000

/-- `fetchFromStaticFile`: serve the static snapshot when available
(over either the filesystem or the HTTP branch, both collapsed into the
availability oracle); otherwise return the empty fallback result. -/
def fetchFromStaticFile (env : ServiceEnv) (now : Nat) : AlbumsResult :=
  match env.staticAlbums with
  | some albums =>
    { albums := albums, count := albums.length, timestamp := now
    , source := some "static-file", static := some true }
  | none =>
    { albums := [], count := 0, timestamp := now
    , static := some false, fallback := some true }

/-- `fetchFromStaticCachedFile`, same contract for the second snapshot. -/
def fetchFromStaticCachedFile (env : ServiceEnv) (now : Nat) : AlbumsResult :=
  match env.staticCachedAlbums with
  | some albums =>
    { albums := albums, count := albums.length, timestamp := now
    , source := some "static-cached-file", static := some true }
  | none =>
    { albums := [], count := 0, timestamp := now
    , source := some "static-cached-file", static := some false, fallback := some true }

/-- The feedId recorded for a caught per-feed error:
`feed.id || feed.originalUrl || 'unknown'`. -/
def errFeedId (f : Feed) : String :=
  if ¬ f.id = "" then f.id else if ¬ f.originalUrl = "" then f.originalUrl else "unknown"

/-- The outcome of one iteration of the dynamic parse loop: the
invalid-URL guard throws before the parser is consulted. -/
def loopOutcome (parse : String → ParseOutcome) (f : Feed) : ParseOutcome :=
  if f.originalUrl = "" then .err ("Invalid feed URL: " ++ f.originalUrl)
  else parse f.originalUrl

/-- The sequential per-feed loop of `fetchFromFeedManager`: collect
enriched albums and per-feed errors, continuing past failures.  (The
rate-limit delays and the color-extraction side channel do not touch the
returned result and are elided.) -/
def parseLoop (parse : String → ParseOutcome) (includeErrors : Bool) :
    List Feed → List Album × List FeedError
  | [] => ([], [])
  | f :: rest =>
    let tail := parseLoop parse includeErrors rest
    match loopOutcome parse f with
    | .ok a => (enrichAlbum a f :: tail.1, tail.2)
    | .nodata =>
      (tail.1, if includeErrors then { feedId := f.id, error := "No album data returned" } :: tail.2 else tail.2)
    | .err m =>
      (tail.1, if includeErrors then { feedId := errFeedId f, error := m } :: tail.2 else tail.2)

/-- `fetchFromFeedManager`: resolve the active album feeds, fall back to
the static file when there are none, otherwise run the parse loop and
store the result in the in-memory cache. -/
def fetchFromFeedManager (env : ServiceEnv) (st : ServiceState) (now : Nat)
    (priority : Option FeedPriority) (includeErrors : Bool) :
    AlbumsResult × ServiceState :=
  let feeds := FeedManager.getActiveFeeds env.registry
  if feeds.isEmpty then
    let staticResult := fetchFromStaticFile env now
    if staticResult.albums.length > 0 then
      ({ staticResult with
          fallback := some true
          errors := if includeErrors then some [{ feedId := "none", error := "No active feeds found, using static file" }] else none }, st)
    else
      ({ albums := [], count := 0, timestamp := now, source := some "dynamic"
       , errors := if includeErrors then some [{ feedId := "none", error := "No active feeds found" }] else none }, st)
  else
    let albumFeeds0 := feeds.filter (fun f => f.type = .album)
    let albumFeeds := match priority with
      | some p => albumFeeds0.filter (fun f => f.priority = p)
      | none => albumFeeds0
    if albumFeeds.isEmpty then
      let staticResult := fetchFromStaticFile env now
      if staticResult.albums.length > 0 then
        ({ staticResult with
            fallback := some true
            errors := if includeErrors then some [{ feedId := "none", error := "No album feeds found, using static file" }] else none }, st)
      else
        ({ albums := [], count := 0, timestamp := now, source := some "dynamic"
         , errors := if includeErrors then some [{ feedId := "none", error := "No album feeds found" }] else none }, st)
    else
      let looped := parseLoop env.parse includeErrors albumFeeds
      let result : AlbumsResult :=
        { albums := looped.1, count := looped.1.length, timestamp := now
        , source := some "direct-rss-parsing"
        , errors := if includeErrors ∧ ¬ looped.2.isEmpty then some looped.2 else none }
      (result, { memoryCache := some result, cacheTimestamp := now })

/-- The per-feed loop of `fetchFromDatabase`: same parsing, but a null
album is silently dropped (no error entry) and there is no invalid-URL
guard. -/
def dbLoop (parse : String → ParseOutcome) (includeErrors : Bool) :
    List Feed → List Album × List FeedError
  | [] => ([], [])
  | f :: rest =>
    let tail := dbLoop parse includeErrors rest
    if f.status = .active then
      match parse f.originalUrl with
      | .ok a => (enrichAlbum a f :: tail.1, tail.2)
      | .nodata => tail
      | .err m =>
        (tail.1, if includeErrors then { feedId := f.id, error := m } :: tail.2 else tail.2)
    else tail

/-- `fetchFromDatabase`: parse the feeds of the feeds-manager registry;
if reading that registry throws (an unparsable URL), fall back to the
static file; otherwise cache and return the parsed result. -/
def fetchFromDatabase (env : ServiceEnv) (st : ServiceState) (now : Nat)
    (includeErrors : Bool) : AlbumsResult × ServiceState :=
  match FeedsManager.getAllFeeds "" env.dbUrls with
  | none => (fetchFromStaticFile env now, st)
  | some dbFeeds =>
    let looped := dbLoop env.parse includeErrors dbFeeds
    let result : AlbumsResult :=
      { albums := looped.1, count := looped.1.length, timestamp := now
      , source := some "database-feeds"
      , errors := if includeErrors ∧ ¬ looped.2.isEmpty then some looped.2 else none }
    (result, { memoryCache := some result, cacheTimestamp := now })

/-- `fetchAuto`: static snapshot first (unless regeneration is forced),
then the dynamic parse, then the static snapshot again as a fallback
carrying the dynamic errors. -/
def fetchAuto (env : ServiceEnv) (st : ServiceState) (now : Nat)
    (forceRegenerate : Bool) (priority : Option FeedPriority) (includeErrors : Bool) :
    AlbumsResult × ServiceState :=
  let dynamicPath : AlbumsResult × ServiceState :=
    let d := fetchFromFeedManager env st now priority includeErrors
    if d.1.albums.length > 0 then d
    else
      let s2 := fetchFromStaticFile env now
      if s2.albums.length > 0 then
        ({ s2 with fallback := some true, errors := d.1.errors }, d.2)
      else d
  if ¬ forceRegenerate then
    let s := fetchFromStaticFile env now
    if s.albums.length > 0 then (s, st) else dynamicPath
  else dynamicPath

/-- `AlbumsService.fetchAlbums`: clear the cache on request, serve a
fresh-enough cached result tagged with its age, otherwise route to the
selected source.  Total by construction — the outer catch-all of the
source never lets an exception reach the caller. -/
def fetchAlbums (env : ServiceEnv) (st0 : ServiceState) (now : Nat)
    (opts : FetchOptions) : AlbumsResult × ServiceState :=
  let st := if opts.clearCache then ServiceState.initial else st0
  let hit : Option AlbumsResult :=
    if ¬ opts.forceRegenerate then
      match st.memoryCache with
      | some r => if now - st.cacheTimestamp < CACHE_TTL then some r else none
      | none => none
    else none
  match hit with
  | some r =>
    ({ r with cached := some true, cacheAge := some ((now - st.cacheTimestamp + 500) / 1000) }, st)
  | none =>
    match opts.source with
    | .static => (fetchFromStaticFile env now, st)
    | .staticCached => (fetchFromStaticCachedFile env now, st)
    | .dynamic => fetchFromFeedManager env st now opts.priority opts.includeErrors
    | .database => fetchFromDatabase env st now opts.includeErrors
    | .auto => fetchAuto env st now opts.forceRegenerate opts.priority opts.includeErrors

end AlbumsService

namespace AlbumRoute

/-- `ALBUM_CACHE_TTL`: ten minutes in milliseconds. -/
def ALBUM_CACHE_TTL : Nat := 10 * 60 * 1000

/-- One entry of the module-level `albumCache` map. -/
structure CacheEntry where
  data : Album
  timestamp : Nat
deriving DecidableEq, Repr

/-- The `albumCache` map.  Lookups take the most recent binding of a
key, which matches `Map.get` after `Map.set`. -/
def AlbumCache := List (String × CacheEntry)

/-- `albumCache.get(id)`. -/
def cacheGet (m : AlbumCache) (id : String) : Option CacheEntry :=
  ((m : List (String × CacheEntry)).find? (fun p => p.1 = id)).map (fun p => p.2)

/-- `albumCache.set(id, e)`. -/
def cacheSet (m : AlbumCache) (id : String) (e : CacheEntry) : AlbumCache :=
  ((id, e) :: (m : List (String × CacheEntry)) : List (String × CacheEntry))

/-- The collaborators of the single-album route: the feed registry
behind `FeedManager.getActiveFeeds`, the `RSSParser.parseAlbumFeed`
oracle, and the static snapshot (`none` = unavailable over both the
filesystem and the HTTP branch). -/
structure RouteEnv where
  registry : List Feed
  parse : String → ParseOutcome
  staticAlbums : Option (List Album)

/-- The distinguishable JSON responses of the route. -/
inductive RouteResponse where
  | cachedAlbum (a : Album)
  | publisherRedirect (publisherFeedId publisherTitle : String)
  | albumOk (a : Album)
  | staticAlbum (a : Album)
  | parseFailed
  | notFound
deriving DecidableEq, Repr

/-- Whether a response is the explicit this-is-a-publisher signal (the
400 response telling the caller not to treat the id as an album). -/
def RouteResponse.isPublisherRedirect : RouteResponse → Bool
  | .publisherRedirect _ _ => true
  | _ => false

/-- The observable side effects of one route invocation: whether the
feed registry was read and how many feeds were parsed. -/
structure Effects where
  readRegistry : Bool
  parseCalls : Nat
deriving DecidableEq, Repr

/-- The four title-matching rules of the route (exact lowercase title,
album slug, compat slug, flexible base-title slug), shared by the feed
title search and the static-album search. -/
def matchesAlbumTitle (nowMs : Nat) (albumId : String) (title : String) : Bool :=
  let titleMatch := jsToLowerStr title = jsToLowerStr albumId
  let slugMatch := generateAlbumSlug nowMs title = jsToLowerStr albumId
  let compatMatch := generateSlug title = jsToLowerStr albumId
  let baseTitle := String.mk (baseTitleSegment (jsToLowerStr title).toList)
  let flexibleMatch := generateAlbumSlug nowMs baseTitle = jsToLowerStr albumId
  titleMatch || slugMatch || compatMatch || flexibleMatch

/-- The title-search loop of the route: parse each album feed in turn,
skip feeds that fail to parse or have no title, stop at the first feed
whose parsed title matches; also report the number of parse calls. -/
def titleSearch (parse : String → ParseOutcome) (nowMs : Nat) (albumId : String) :
    List Feed → Option (Feed × ParsedAlbum) × Nat
  | [] => (none, 0)
  | f :: rest =>
    match parse f.originalUrl with
    | .ok a =>
      if a.title = "" then
        let r := titleSearch parse nowMs albumId rest
        (r.1, r.2 + 1)
      else if matchesAlbumTitle nowMs albumId a.title then (some (f, a), 1)
      else
        let r := titleSearch parse nowMs albumId rest
        (r.1, r.2 + 1)
    | _ =>
      let r := titleSearch parse nowMs albumId rest
      (r.1, r.2 + 1)

/-- The `GET` handler of the single-album route (src/unnamed/part_008):
serve a fresh cache entry; otherwise short-circuit on a publisher match;
otherwise direct feed-id match plus a single parse; otherwise the title
search; otherwise the static snapshot; otherwise 404.  A live-parsed
album is stored in the cache under the requested id.  `now` is the
clock in milliseconds, `nowIso` the same instant as an ISO string. -/
def GET (env : RouteEnv) (cache : AlbumCache) (now : Nat) (nowIso : String)
    (albumId : String) : RouteResponse × AlbumCache × Effects :=
  match cacheGet cache albumId with
  | some e =>
    if now - e.timestamp < ALBUM_CACHE_TTL then
      (.cachedAlbum e.data, cache, { readRegistry := false, parseCalls := 0 })
    else GETuncached env cache now nowIso albumId
  | none => GETuncached env cache now nowIso albumId
where
  /-- The part of the handler past the cache check. -/
  GETuncached (env : RouteEnv) (cache : AlbumCache) (now : Nat) (nowIso : String)
      (albumId : String) : RouteResponse × AlbumCache × Effects :=
    let feeds := FeedManager.getActiveFeeds env.registry
    let publisherFeeds := feeds.filter (fun f => f.type = .publisher)
    match publisherFeeds.find? (fun f => f.id = albumId ∨ generateSlug f.title = jsToLowerStr albumId) with
    | some pf =>
      (.publisherRedirect pf.id pf.title, cache, { readRegistry := true, parseCalls := 0 })
    | none =>
      let albumFeeds := feeds.filter (fun f => f.type = .album)
      match albumFeeds.find? (fun f => f.id = albumId) with
      | some f =>
        -- direct feed-id match: parse just this feed
        match env.parse f.originalUrl with
        | .ok a =>
          let album := enrichAlbum a f
          (.albumOk album, cacheSet cache albumId { data := album, timestamp := now }
          , { readRegistry := true, parseCalls := 1 })
        | .nodata => (.parseFailed, cache, { readRegistry := true, parseCalls := 1 })
        | .err _ =>
          -- the exception reaches the outer catch, answered as a 404
          (.notFound, cache, { readRegistry := true, parseCalls := 1 })
      | none =>
        match titleSearch env.parse now albumId albumFeeds with
        | (some (f, a), n) =>
          -- reuse the already-parsed data instead of a second parse
          let album := enrichAlbum a f
          (.albumOk album, cacheSet cache albumId { data := album, timestamp := now }
          , { readRegistry := true, parseCalls := n })
        | (none, n) =>
          let staticAlbums := env.staticAlbums.getD []
          if staticAlbums.length > 0 then
            match staticAlbums.find? (fun sa => matchesAlbumTitle now albumId sa.title) with
            | some sa =>
              (.staticAlbum { sa with
                  feedId := "static-" ++ albumId
                  feedUrl := "static-data"
                  lastUpdated := nowIso }
              , cache, { readRegistry := true, parseCalls := n })
            | none => (.notFound, cache, { readRegistry := true, parseCalls := n })
          else (.notFound, cache, { readRegistry := true, parseCalls := n })

end AlbumRoute

/-!
## Claim theorems

Each claim of the specification audit is settled by exactly one theorem
below (with an additional counterexample theorem where the claim as
stated fails on the code).
-/

/-- The single feed record produced by loading the legacy registry
`["https://a.example/feed.xml"]`. -/
def legacyLoadedFeed (now : String) : Feed :=
  { id := "https-a-example-feed-xml"
  , originalUrl := "https://a.example/feed.xml"
  , type := .album
  , title := "Feed from a.example"
  , priority := .core
  , status := .active
  , addedAt := now
  , lastUpdated := now
  , source := some .manual }

/-- C8: loading the legacy bare string array
`["https://a.example/feed.xml"]` yields exactly one FeedRecord with type
album, priority core, status active, source manual, the title inferred
from the URL hostname and the slug id derived from the URL; loading a
missing or corrupt file yields the empty registry instead of an error. -/
theorem C8_legacy_load (now : String) :
    (FeedManager.loadFeeds (.urlArrayDoc ["https://a.example/feed.xml"]) now).feeds
      = [legacyLoadedFeed now]
    ∧ (FeedManager.loadFeeds .missing now).feeds = []
    ∧ (FeedManager.loadFeeds .corrupt now).feeds = [] :=
  ⟨rfl, rfl, rfl⟩

/-- A feed already registered under the URL that C2 tries to add again. -/
def c2ExistingFeed : Feed :=
  { id := "existing"
  , originalUrl := "https://a.example/feed.xml"
  , type := .album
  , title := "Existing"
  , priority := .core
  , status := .active
  , addedAt := "2024-01-01T00:00:00Z"
  , lastUpdated := "2024-01-01T00:00:00Z" }

/-- The registry already containing that URL. -/
def c2Data : FeedsData :=
  { feeds := [c2ExistingFeed], lastUpdated := some "2024-01-01T00:00:00Z", version := some 1 }

/-- The new record carrying the duplicate originalUrl. -/
def c2NewFeed : FeedManager.NewFeed :=
  { id := "duplicate"
  , originalUrl := "https://a.example/feed.xml"
  , type := .album
  , title := "Duplicate"
  , priority := .core
  , status := .active }

/-- C2 counterexample: `FeedManager.addFeed` performs no duplicate
check — adding a record whose originalUrl is already present does not
fail (the function has no failure outcome at all) and the registry
afterwards holds two records with that originalUrl, falsifying both the
duplicate-feed rejection and the exactly-one-record property. -/
theorem C2_addFeed_no_duplicate_check :
    BuildRss.countUrl (FeedManager.addFeed c2Data c2NewFeed "2024-01-02T00:00:00Z").feeds
      "https://a.example/feed.xml" = 2 := by decide

/-- `FeedsManager.urlToFeed` keeps the URL it is given as
`originalUrl`. -/
theorem FeedsManager.urlToFeed_originalUrl {now url : String} {f : Feed}
    (h : FeedsManager.urlToFeed now url = some f) : f.originalUrl = url := by
  unfold FeedsManager.urlToFeed at h
  cases hu : jsURL url with
  | none => rw [hu] at h; simp at h
  | some parts =>
    rw [hu] at h
    simp only [Option.map_some', Option.some.injEq] at h
    subst h
    rfl

/-- Registry records obtained through `getAllFeeds` are in bijection
with the stored URLs: the number of records carrying a URL equals the
number of stored copies of that URL. -/
theorem FeedsManager.countUrl_getAllFeeds (now : String) (urls : List String)
    (feeds : List Feed) (u : String)
    (h : FeedsManager.getAllFeeds now urls = some feeds) :
    BuildRss.countUrl feeds u = urls.count u := by
  induction urls generalizing feeds with
  | nil =>
    unfold FeedsManager.getAllFeeds at h
    simp only [Option.some.injEq] at h
    subst h
    rfl
  | cons u0 rest ih =>
    unfold FeedsManager.getAllFeeds at h
    cases hf : FeedsManager.urlToFeed now u0 with
    | none => rw [hf] at h; simp at h
    | some f0 =>
      rw [hf] at h
      cases hrest : FeedsManager.getAllFeeds now rest with
      | none => rw [hrest] at h; simp at h
      | some fs =>
        rw [hrest] at h
        simp only [Option.some.injEq] at h
        subst h
        have htail := ih fs hrest
        have hurl : f0.originalUrl = u0 := FeedsManager.urlToFeed_originalUrl hf
        unfold BuildRss.countUrl at htail ⊢
        by_cases hc : u0 = u
        · have heq : f0.originalUrl = u := by rw [hurl]; exact hc
          simp only [List.filter_cons, List.count_cons, heq, hc, if_pos]
          simp [htail]
        · have hne : ¬ f0.originalUrl = u := by rw [hurl]; exact hc
          simp only [List.filter_cons, List.count_cons]
          simp [htail, hc, hne]

/-- C2 (amended): the duplicate check lives in the feeds-manager
`addFeed`, not in `FeedManager.addFeed`.  Adding a URL that is already
stored fails with the duplicate-feed error and leaves the stored list
unchanged; when the URL is absent it is appended, the stored list then
holds exactly one copy of it, and a subsequent `getAllFeeds` load yields
exactly one record with that originalUrl. -/
theorem C2_feedsManager_addFeed_unique (now now2 : String) (urls : List String)
    (url : String) :
    (url ∈ urls →
      FeedsManager.addFeed now urls url
        = ({ success := false, error := some "Feed already exists" }, urls))
    ∧ (url ∉ urls →
        (FeedsManager.addFeed now urls url).2 = urls ++ [url]
        ∧ ((FeedsManager.addFeed now urls url).2).count url = 1
        ∧ ∀ feeds, FeedsManager.getAllFeeds now2 ((FeedsManager.addFeed now urls url).2) = some feeds →
            BuildRss.countUrl feeds url = 1) := by
  constructor
  · intro hmem
    unfold FeedsManager.addFeed
    rw [if_pos (by exact List.elem_eq_true_of_mem hmem)]
  · intro hmem
    have hcon : ¬ (urls.contains url = true) := by
      intro hc
      exact hmem (List.mem_of_elem_eq_true hc)
    have hstored : (FeedsManager.addFeed now urls url).2 = urls ++ [url] := by
      unfold FeedsManager.addFeed
      rw [if_neg hcon]
      cases h : FeedsManager.urlToFeed now url <;> simp
    refine ⟨hstored, ?_, ?_⟩
    · rw [hstored]
      rw [List.count_append]
      rw [List.count_eq_zero.mpr hmem]
      simp
    · intro feeds hfeeds
      rw [FeedsManager.countUrl_getAllFeeds now2 _ feeds url hfeeds]
      rw [hstored, List.count_append, List.count_eq_zero.mpr hmem]
      simp

/-- C2 witness: the amended theorem applied to a concrete registry, in
both the duplicate branch and the fresh branch. -/
theorem C2_feedsManager_addFeed_unique_witness :
    FeedsManager.addFeed "t1" ["https://a.example/feed.xml"] "https://a.example/feed.xml"
      = ({ success := false, error := some "Feed already exists" }, ["https://a.example/feed.xml"])
    ∧ (FeedsManager.addFeed "t1" [] "https://a.example/feed.xml").2.count "https://a.example/feed.xml" = 1 :=
  ⟨(C2_feedsManager_addFeed_unique "t1" "t2" ["https://a.example/feed.xml"] "https://a.example/feed.xml").1
      (by decide)
  , ((C2_feedsManager_addFeed_unique "t1" "t2" [] "https://a.example/feed.xml").2
      (by decide)).2.1⟩

/-- C6 counterexample: a successful feeds-manager `addFeed` writes the
registry file as a bare JSON array of URL strings — not the canonical
`{feeds, lastUpdated, version}` object — so not every mutating write
produces the canonical shape. -/
theorem C6_feedsManager_write_not_canonical :
    (FeedsManager.addFeed "t" [] "https://a.example/feed.xml").2 = ["https://a.example/feed.xml"]
    ∧ isCanonicalShape (FeedsManager.writeFeedsFileDoc
        (FeedsManager.addFeed "t" [] "https://a.example/feed.xml").2) = false := by
  constructor
  · decide
  · decide

/-- C6 (amended): `FeedManager.detectAndUpdateFeedTypes` always saves in
the canonical object shape (version defaulted to 1); the
add/update/remove writes of `FeedManager` keep the object shape with
`lastUpdated` restamped but inherit `version` from the loaded document,
so they are canonical exactly when that version was present; the
feeds-manager writes are a bare URL-string array and never canonical. -/
theorem C6_write_shapes (data : FeedsData) (detect : String → Option FeedType)
    (now : String) (nf : FeedManager.NewFeed) (id : String) (p : FeedManager.FeedPatch)
    (urls : List String) :
    (∀ doc, (FeedManager.detectAndUpdateFeedTypes data detect now).2 = some doc →
      isCanonicalShape doc = true)
    ∧ isCanonicalShape (FeedManager.addFeedWrite data nf now) = data.version.isSome
    ∧ isCanonicalShape (FeedManager.removeFeedWrite data id now) = data.version.isSome
    ∧ (∀ doc, (FeedManager.updateFeed data id p now).2 = some doc →
        isCanonicalShape doc = data.version.isSome)
    ∧ isCanonicalShape (FeedsManager.writeFeedsFileDoc urls) = false := by
  refine ⟨?_, ?_, ?_, ?_, ?_⟩
  · intro doc hdoc
    unfold FeedManager.detectAndUpdateFeedTypes at hdoc
    by_cases hch : data.feeds.map (FeedManager.flipFeedType detect now) = data.feeds
    · rw [if_pos hch] at hdoc; simp at hdoc
    · rw [if_neg hch] at hdoc
      simp only [Option.some.injEq] at hdoc
      subst hdoc
      rfl
  · rfl
  · rfl
  · intro doc hdoc
    unfold FeedManager.updateFeed at hdoc
    by_cases hfind : (data.feeds.find? (fun f => f.id = id)).isSome
    · rw [if_pos hfind] at hdoc
      simp only [Option.some.injEq] at hdoc
      subst hdoc
      rfl
    · rw [if_neg hfind] at hdoc; simp at hdoc
  · rfl

/-- The concrete registry used by the C6 and C9 witnesses: one active
album record under a version-1 document. -/
def witnessData : FeedsData :=
  { feeds := [c2ExistingFeed], lastUpdated := some "2024-01-01T00:00:00Z", version := some 1 }

/-- C6 witness: the reclassification branch applied to a concrete
registry whose single feed gets flipped to publisher. -/
theorem C6_write_shapes_witness :
    isCanonicalShape (.objectShape
      [{ c2ExistingFeed with type := .publisher, lastUpdated := "2024-02-01T00:00:00Z" }]
      (some "2024-02-01T00:00:00Z") (some 1)) = true :=
  (C6_write_shapes witnessData (fun _ => some .publisher) "2024-02-01T00:00:00Z"
      c2NewFeed "x" {} []).1 _ (by decide)

/-- C9 counterexample: `FeedManager.removeFeed` with an id that matches
no record still rewrites the registry — restamping `lastUpdated` — and
returns no not-found signal, so the stored registry is not left
unchanged on a miss. -/
theorem C9_removeFeed_miss_rewrites :
    ¬ FeedManager.removeFeed witnessData "no-such-id" "2024-03-01T00:00:00Z" = witnessData := by
  decide

/-- C9 (amended): the not-found signalling lives in the feeds-manager
`removeFeed`: on a registry of parsable URLs it removes the matching
records, and when no stored URL derives the requested feed id it
returns the non-fatal `Feed not found` result and leaves the stored
list untouched; `FeedManager.removeFeed` keeps the unmatched records
but restamps and rewrites unconditionally with no signal. -/
theorem C9_remove_not_found (now : String) (urls : List String) (feedId : String)
    (hparse : ∀ u ∈ urls, (jsURL u).isSome) :
    ((∀ u ∈ urls, ∀ f, FeedsManager.urlToFeed now u = some f → ¬ f.id = feedId) →
      FeedsManager.removeFeed now urls feedId
        = ({ success := false, error := some "Feed not found" }, urls))
    ∧ ((∃ u ∈ urls, ∃ f, FeedsManager.urlToFeed now u = some f ∧ f.id = feedId) →
        (FeedsManager.removeFeed now urls feedId).1.success = true)
    ∧ ∀ (data : FeedsData) (id now2 : String),
        (∀ f ∈ data.feeds, ¬ f.id = id) →
        (FeedManager.removeFeed data id now2).feeds = data.feeds
        ∧ (FeedManager.removeFeed data id now2).lastUpdated = some now2 := by
  have hany : ¬ (urls.any (fun u => (jsURL u).isNone) = true) := by
    simp only [List.any_eq_true, not_exists]
    intro u
    intro hcontra
    obtain ⟨hu, hnone⟩ := hcontra
    have := hparse u hu
    simp [Option.isNone_iff_eq_none] at hnone
    rw [hnone] at this
    simp at this
  refine ⟨?_, ?_, ?_⟩
  · intro hnomatch
    unfold FeedsManager.removeFeed
    rw [if_neg hany]
    have hfilter : urls.filter (fun u =>
        match FeedsManager.urlToFeed now u with
        | some f => ¬ f.id = feedId
        | none => true) = urls := by
      apply List.filter_eq_self.mpr
      intro u hu
      cases hf : FeedsManager.urlToFeed now u with
      | none => simp
      | some f =>
        have := hnomatch u hu f hf
        simp [this]
    rw [hfilter]
    simp
  · intro hmatch
    obtain ⟨u, hu, f, hf, hid⟩ := hmatch
    unfold FeedsManager.removeFeed
    rw [if_neg hany]
    have hlt : (urls.filter (fun u =>
        match FeedsManager.urlToFeed now u with
        | some f => ¬ f.id = feedId
        | none => true)).length < urls.length := by
      apply List.length_filter_lt_length_iff_exists.mpr
      refine ⟨u, hu, ?_⟩
      simp [hf, hid]
    rw [if_neg (by omega)]
  · intro data id now2 hmiss
    constructor
    · unfold FeedManager.removeFeed
      simp only
      apply List.filter_eq_self.mpr
      intro f hf
      have := hmiss f hf
      simp [this]
    · rfl

/-- C9 witness: the amended theorem applied to a concrete one-URL
registry whose derived id does not match the requested one, together
with the FeedManager part at a concrete miss. -/
theorem C9_remove_not_found_witness :
    FeedsManager.removeFeed "t" ["https://a.example/feed.xml"] "no-such-id"
      = ({ success := false, error := some "Feed not found" }, ["https://a.example/feed.xml"]) :=
  (C9_remove_not_found "t" ["https://a.example/feed.xml"] "no-such-id" (by decide)).1
    (by decide)

/-- The character set `[a-z0-9-]` that the spec requires of derived
feed ids. -/
def isIdChar (c : Char) : Bool := isAsciiLower c || isAsciiDigit c || c = '-'

/-- A character list that does not start with a hyphen. -/
def noLeadDash (l : List Char) : Bool :=
  if l.head? = some '-' then false else true

/-- A character list that does not end with a hyphen. -/
def noTrailDash (l : List Char) : Bool :=
  if l.getLast? = some '-' then false else true

/-- No two adjacent characters both satisfy `p`. -/
def noAdjP (p : Char → Bool) : List Char → Bool
  | c :: d :: rest => (!(p c && p d)) && noAdjP p (d :: rest)
  | _ => true

/-- `Char.ofNat` below the surrogate range evaluates to its argument. -/
theorem toNat_ofNat_lt {n : Nat} (h : n < 55296) : (Char.ofNat n).toNat = n := by
  have hvalid : Nat.isValidChar n := Or.inl h
  simp only [Char.ofNat, hvalid, dif_pos]
  rfl

/-- Every character produced by `normChar` lies in `[a-z0-9-]`. -/
theorem isIdChar_normChar (c : Char) : isIdChar (normChar c) = true := by
  unfold normChar
  by_cases ha : isAsciiAlnum c = true
  · rw [if_pos ha]
    unfold jsToLower
    by_cases hu : isAsciiUpper c = true
    · rw [if_pos hu]
      unfold isAsciiUpper at hu
      simp only [Bool.and_eq_true, decide_eq_true_eq] at hu
      have hv : (Char.ofNat (c.toNat + 32)).toNat = c.toNat + 32 :=
        toNat_ofNat_lt (by omega)
      unfold isIdChar isAsciiLower isAsciiDigit
      simp only [hv, Bool.or_eq_true, Bool.and_eq_true, decide_eq_true_eq]
      left
      omega
    · rw [if_neg hu]
      unfold isAsciiAlnum at ha
      unfold isIdChar
      simp only [Bool.or_eq_true] at ha ⊢
      rcases ha with (h | h) | h
      · exact absurd h hu
      · exact Or.inl (Or.inl h)
      · exact Or.inl (Or.inr h)
  · rw [if_neg ha]
    decide

/-- Characters of `replaceRuns p r l` are `r` or come from `l`. -/
theorem mem_replaceRuns (p : Char → Bool) (r : Char) :
    ∀ l, ∀ c ∈ replaceRuns p r l, c = r ∨ c ∈ l
  | [] => by simp [replaceRuns]
  | [a] => by
    intro c hc
    unfold replaceRuns at hc
    split at hc <;> simp_all
  | a :: b :: rest => by
    intro c hc
    unfold replaceRuns at hc
    split at hc
    · rcases mem_replaceRuns p r (b :: rest) c hc with h | h
      · exact Or.inl h
      · exact Or.inr (List.mem_cons_of_mem a h)
    · rcases List.mem_cons.mp hc with h | h
      · subst h
        by_cases hp : p a = true
        · simp [hp]
        · simp [hp]
      · rcases mem_replaceRuns p r (b :: rest) c h with h2 | h2
        · exact Or.inl h2
        · exact Or.inr (List.mem_cons_of_mem a h2)

/-- The head of `replaceRuns p r` on a nonempty list. -/
theorem head_replaceRuns (p : Char → Bool) (r : Char) :
    ∀ (d : Char) (rest : List Char),
      (replaceRuns p r (d :: rest)).head? = some (if p d then r else d)
  | d, [] => by unfold replaceRuns; split <;> rfl
  | d, e :: rest => by
    unfold replaceRuns
    split
    · rename_i hde
      rw [head_replaceRuns p r e rest]
      simp only [Bool.and_eq_true] at hde
      rw [if_pos hde.1, if_pos hde.2]
    · rfl

/-- The output of `replaceRuns p r` never has two adjacent characters
satisfying `p`: runs are collapsed to single replacement characters and
separated by characters that fail `p`. -/
theorem noAdjP_replaceRuns (p : Char → Bool) (r : Char) :
    ∀ l, noAdjP p (replaceRuns p r l) = true
  | [] => by rfl
  | [a] => by unfold replaceRuns; split <;> rfl
  | a :: b :: rest => by
    unfold replaceRuns
    split
    · exact noAdjP_replaceRuns p r (b :: rest)
    · rename_i hab
      have htail := noAdjP_replaceRuns p r (b :: rest)
      have hhead := head_replaceRuns p r b rest
      cases hout : replaceRuns p r (b :: rest) with
      | nil => simp [hout, noAdjP]
      | cons x xs =>
        rw [hout] at hhead htail
        simp only [List.head?_cons, Option.some.injEq] at hhead
        subst hhead
        unfold noAdjP
        rw [htail]
        simp only [Bool.and_true, Bool.not_eq_eq_eq_not, Bool.not_true, Bool.and_eq_false_iff]
        by_cases hpa : p a = true
        · have hpb : ¬ p b = true := by
            intro hpb
            exact hab (by simp [hpa, hpb])
          rw [if_pos hpa, if_neg hpb]
          simp [hpb]
        · rw [if_neg hpa]
          simp [hpa]

/-- `noAdjP` survives truncation: adjacent pairs of `l.take n` are
adjacent pairs of `l`. -/
theorem noAdjP_take (p : Char → Bool) :
    ∀ (l : List Char) (n : Nat), noAdjP p l = true → noAdjP p (l.take n) = true
  | [], n => by intro h; simp [List.take_nil]; rfl
  | [c], n => by
    intro h
    cases n with
    | zero => rfl
    | succ m => simp only [List.take_succ_cons, List.take_nil]; rfl
  | c :: d :: rest, 0 => by intro h; rfl
  | c :: d :: rest, 1 => by intro h; rfl
  | c :: d :: rest, n + 2 => by
    intro h
    unfold noAdjP at h
    simp only [Bool.and_eq_true] at h
    have ih := noAdjP_take p (d :: rest) (n + 1) h.2
    simp only [List.take_succ_cons] at ih ⊢
    unfold noAdjP
    simp [h.1, ih]

/-- `noAdjP` survives dropping the head. -/
theorem noAdjP_tail (p : Char → Bool) :
    ∀ l, noAdjP p l = true → noAdjP p l.tail = true
  | [] => by intro h; rfl
  | [c] => by intro h; rfl
  | c :: d :: rest => by
    intro h
    unfold noAdjP at h
    simp only [Bool.and_eq_true] at h
    exact h.2

/-- `noAdjP` survives removing one leading hyphen. -/
theorem noAdjP_dropOneLeadDash (p : Char → Bool) (l : List Char)
    (h : noAdjP p l = true) : noAdjP p (dropOneLeadDash l) = true := by
  cases l with
  | nil => rfl
  | cons c rest =>
    show noAdjP p (if c = '-' then rest else c :: rest) = true
    split
    · exact noAdjP_tail p (c :: rest) h
    · exact h

/-- `noAdjP` survives removing one trailing hyphen. -/
theorem noAdjP_dropOneTrailDash (p : Char → Bool) :
    ∀ l, noAdjP p l = true → noAdjP p (dropOneTrailDash l) = true
  | [] => by intro h; rfl
  | [c] => by
    intro h
    show noAdjP p (if c = '-' then [] else [c]) = true
    split <;> rfl
  | c :: d :: rest => by
    intro h
    unfold noAdjP at h
    simp only [Bool.and_eq_true] at h
    have ih := noAdjP_dropOneTrailDash p (d :: rest) h.2
    show noAdjP p (c :: dropOneTrailDash (d :: rest)) = true
    cases rest with
    | nil =>
      show noAdjP p (c :: if d = '-' then [] else [d]) = true
      split
      · rfl
      · unfold noAdjP
        simp only [Bool.and_eq_true]
        refine ⟨h.1, ?_⟩
        rfl
    | cons e rest2 =>
      have hshape : dropOneTrailDash (d :: e :: rest2) = d :: dropOneTrailDash (e :: rest2) := rfl
      rw [hshape]
      unfold noAdjP
      rw [hshape] at ih
      simp only [Bool.and_eq_true]
      exact ⟨h.1, ih⟩

/-- After one leading-hyphen removal from a list with no adjacent
hyphens, the head is not a hyphen. -/
theorem noLeadDash_dropOneLeadDash (l : List Char)
    (h : noAdjP (fun c => c = '-') l = true) :
    noLeadDash (dropOneLeadDash l) = true := by
  cases l with
  | nil => rfl
  | cons c rest =>
    show noLeadDash (if c = '-' then rest else c :: rest) = true
    split
    · cases rest with
      | nil => rfl
      | cons d t =>
        unfold noAdjP at h
        simp only [Bool.and_eq_true, Bool.not_eq_eq_eq_not, Bool.not_true,
          Bool.and_eq_false_iff, decide_eq_false_iff_not, decide_eq_true_eq] at h
        have hd : ¬ d = '-' := by
          rename_i hc
          rcases h.1 with h1 | h1
          · exact absurd hc h1
          · exact h1
        unfold noLeadDash
        simp [hd]
    · unfold noLeadDash
      rename_i hc
      simp [hc]

/-- Removing one trailing hyphen keeps the head hyphen-free. -/
theorem noLeadDash_dropOneTrailDash :
    ∀ l, noLeadDash l = true → noLeadDash (dropOneTrailDash l) = true
  | [] => by intro h; rfl
  | [c] => by
    intro h
    show noLeadDash (if c = '-' then [] else [c]) = true
    split
    · rfl
    · exact h
  | c :: d :: rest => by
    intro h
    show noLeadDash (c :: dropOneTrailDash (d :: rest)) = true
    unfold noLeadDash at h ⊢
    simpa using h

/-- Truncation keeps the head hyphen-free. -/
theorem noLeadDash_take (l : List Char) (n : Nat) (h : noLeadDash l = true) :
    noLeadDash (l.take n) = true := by
  cases n with
  | zero => rfl
  | succ m =>
    cases l with
    | nil => rfl
    | cons c rest =>
      rw [List.take_succ_cons]
      unfold noLeadDash at h ⊢
      simpa using h

/-- After one trailing-hyphen removal from a list with no adjacent
hyphens, the last character is not a hyphen. -/
theorem noTrailDash_dropOneTrailDash :
    ∀ l, noAdjP (fun c => c = '-') l = true → noTrailDash (dropOneTrailDash l) = true
  | [] => by intro h; rfl
  | [c] => by
    intro h
    show noTrailDash (if c = '-' then [] else [c]) = true
    split
    · rfl
    · rename_i hc
      unfold noTrailDash
      simp [hc]
  | c :: d :: rest => by
    intro h
    unfold noAdjP at h
    simp only [Bool.and_eq_true, Bool.not_eq_eq_eq_not, Bool.not_true,
      Bool.and_eq_false_iff, decide_eq_false_iff_not, decide_eq_true_eq] at h
    have ih := noTrailDash_dropOneTrailDash (d :: rest) h.2
    show noTrailDash (c :: dropOneTrailDash (d :: rest)) = true
    cases rest with
    | nil =>
      show noTrailDash (c :: if d = '-' then [] else [d]) = true
      split
      · rename_i hd
        have hc : ¬ c = '-' := by
          rcases h.1 with h1 | h1
          · exact h1
          · exact absurd hd h1
        unfold noTrailDash
        simp [hc]
      · rename_i hd
        unfold noTrailDash
        rw [List.getLast?_cons_cons]
        simp [hd]
    | cons e rest2 =>
      have hshape : dropOneTrailDash (d :: e :: rest2) = d :: dropOneTrailDash (e :: rest2) := rfl
      rw [hshape]
      rw [hshape] at ih
      unfold noTrailDash at ih ⊢
      rw [List.getLast?_cons_cons]
      exact ih

/-- Characters survive `dropOneLeadDash` membership-wise. -/
theorem mem_dropOneLeadDash {c : Char} : ∀ {l}, c ∈ dropOneLeadDash l → c ∈ l := by
  intro l
  cases l with
  | nil => exact fun h => h
  | cons a rest =>
    show c ∈ (if a = '-' then rest else a :: rest) → _
    split
    · exact fun h => List.mem_cons_of_mem a h
    · exact fun h => h

/-- Characters survive `dropOneTrailDash` membership-wise. -/
theorem mem_dropOneTrailDash {c : Char} : ∀ {l}, c ∈ dropOneTrailDash l → c ∈ l
  | [], h => h
  | [a], h => by
    revert h
    show c ∈ (if a = '-' then [] else [a]) → _
    split
    · intro h; cases h
    · exact fun h => h
  | a :: b :: rest, h => by
    revert h
    show c ∈ a :: dropOneTrailDash (b :: rest) → _
    intro h
    rcases List.mem_cons.mp h with h1 | h1
    · exact h1 ▸ List.mem_cons_self a (b :: rest)
    · exact List.mem_cons_of_mem a (mem_dropOneTrailDash h1)

/-- `dropOneTrailDash` never lengthens a list. -/
theorem length_dropOneTrailDash : ∀ l : List Char, (dropOneTrailDash l).length ≤ l.length
  | [] => Nat.le_refl _
  | [a] => by
    show (if a = '-' then ([] : List Char) else [a]).length ≤ 1
    split <;> simp
  | a :: b :: rest => by
    show (a :: dropOneTrailDash (b :: rest)).length ≤ (a :: b :: rest).length
    simp only [List.length_cons]
    have := length_dropOneTrailDash (b :: rest)
    simp only [List.length_cons] at this ⊢
    omega

/-- Every character of the trim-then-collapse id pipeline lies in
`[a-z0-9-]`. -/
theorem all_isIdChar_pipeline (u : String) :
    ∀ c ∈ stripDash (collapseDashes (u.toList.map normChar)), isIdChar c = true := by
  intro c hc
  have hc2 : c ∈ collapseDashes (u.toList.map normChar) :=
    mem_dropOneLeadDash (mem_dropOneTrailDash hc)
  unfold collapseDashes at hc2
  rcases mem_replaceRuns _ _ _ c hc2 with h | h
  · subst h; rfl
  · rcases List.mem_map.mp h with ⟨a, _, ha⟩
    subst ha
    exact isIdChar_normChar a

/-- The branch structure of `FeedsManager.urlToFeedId`, spelled out. -/
theorem urlToFeedId_eq (url : String) :
    FeedsManager.urlToFeedId url =
      if (stripDash (collapseDashes (url.toList.map normChar))).length > 200 then
        String.mk (dropOneTrailDash ((stripDash (collapseDashes (url.toList.map normChar))).take 200))
      else String.mk (stripDash (collapseDashes (url.toList.map normChar))) := rfl

/-- The 201-character URL whose feed-manager id ends in a hyphen: the
200-character cap cuts the collapsed, trimmed id at a hyphen and
feed-manager applies the cap after the trim. -/
def c4LongUrl : String := String.mk ((List.range 100).flatMap (fun _ => ['a', '.']) ++ ['a'])

/-- C4 counterexample: the derived ids do not always avoid leading and
trailing hyphens.  The build-script derivation keeps the hyphen that
the trailing slash of `http://a.com/` becomes, and the feed-manager
derivation of a 201-character alternating URL ends in a hyphen because
truncation happens after the hyphen trim. -/
theorem C4_trailing_hyphen_counterexample :
    noTrailDash ((BuildRss.deriveId "http://a.com/").toList) = false
    ∧ noTrailDash ((FeedManager.deriveId c4LongUrl).toList) = false := by
  constructor
  · decide
  · decide

/-- C4 (amended): all three id derivations are (deterministic) functions
into `[a-z0-9-]` strings of length at most 200; the feeds-manager
derivation additionally never begins or ends with a hyphen; the
feed-manager derivation never begins with a hyphen but can end with one
when truncation cuts at a hyphen; the build-script derivation does no
collapsing or trimming at all. -/
theorem C4_derive_id_shapes (u : String) :
    ((FeedManager.deriveId u).toList.all isIdChar = true
      ∧ (FeedManager.deriveId u).toList.length ≤ 200
      ∧ noLeadDash (FeedManager.deriveId u).toList = true)
    ∧ ((FeedsManager.urlToFeedId u).toList.all isIdChar = true
      ∧ (FeedsManager.urlToFeedId u).toList.length ≤ 200
      ∧ noLeadDash (FeedsManager.urlToFeedId u).toList = true
      ∧ noTrailDash (FeedsManager.urlToFeedId u).toList = true)
    ∧ ((BuildRss.deriveId u).toList.all isIdChar = true
      ∧ (BuildRss.deriveId u).toList.length ≤ 200) := by
  have hadj : noAdjP (fun c => c = '-') (collapseDashes (u.toList.map normChar)) = true := by
    unfold collapseDashes
    exact noAdjP_replaceRuns _ _ _
  have hadjStrip : noAdjP (fun c => c = '-') (stripDash (collapseDashes (u.toList.map normChar))) = true :=
    noAdjP_dropOneTrailDash _ _ (noAdjP_dropOneLeadDash _ _ hadj)
  have hlead : noLeadDash (stripDash (collapseDashes (u.toList.map normChar))) = true :=
    noLeadDash_dropOneTrailDash _ (noLeadDash_dropOneLeadDash _ hadj)
  have htrail : noTrailDash (stripDash (collapseDashes (u.toList.map normChar))) = true :=
    noTrailDash_dropOneTrailDash _ (noAdjP_dropOneLeadDash _ _ hadj)
  refine ⟨⟨?_, ?_, ?_⟩, ?_, ⟨?_, ?_⟩⟩
  · apply List.all_eq_true.mpr
    intro c hc
    exact all_isIdChar_pipeline u c (List.take_subset _ _ hc)
  · show ((stripDash (collapseDashes (u.toList.map normChar))).take 200).length ≤ 200
    exact List.length_take_le _ _
  · exact noLeadDash_take _ 200 hlead
  · rw [urlToFeedId_eq]
    by_cases hlen : (stripDash (collapseDashes (u.toList.map normChar))).length > 200
    · rw [if_pos hlen]
      refine ⟨?_, ?_, ?_, ?_⟩
      · apply List.all_eq_true.mpr
        intro c hc
        exact all_isIdChar_pipeline u c (List.take_subset _ _ (mem_dropOneTrailDash hc))
      · show (dropOneTrailDash _).length ≤ 200
        calc (dropOneTrailDash ((stripDash (collapseDashes (u.toList.map normChar))).take 200)).length
            ≤ ((stripDash (collapseDashes (u.toList.map normChar))).take 200).length :=
              length_dropOneTrailDash _
          _ ≤ 200 := List.length_take_le _ _
      · exact noLeadDash_dropOneTrailDash _ (noLeadDash_take _ 200 hlead)
      · exact noTrailDash_dropOneTrailDash _ (noAdjP_take _ _ 200 hadjStrip)
    · rw [if_neg hlen]
      refine ⟨?_, ?_, ?_, ?_⟩
      · exact List.all_eq_true.mpr (all_isIdChar_pipeline u)
      · show (stripDash (collapseDashes (u.toList.map normChar))).length ≤ 200
        omega
      · exact hlead
      · exact htrail
  · apply List.all_eq_true.mpr
    intro c hc
    have hc2 : c ∈ u.toList.map normChar := List.take_subset _ _ hc
    rcases List.mem_map.mp hc2 with ⟨a, _, ha⟩
    subst ha
    exact isIdChar_normChar a
  · show ((u.toList.map normChar).take 200).length ≤ 200
    exact List.length_take_le _ _

namespace BuildRss

/-- Appending one feed changes a URL count by exactly its own URL. -/
theorem countUrl_append_single (feeds : List Feed) (f : Feed) (u : String) :
    countUrl (feeds ++ [f]) u
      = countUrl feeds u + (if f.originalUrl = u then 1 else 0) := by
  unfold countUrl
  rw [List.filter_append]
  simp only [List.length_append]
  congr 1
  by_cases hf : f.originalUrl = u
  · simp [hf]
  · simp [hf]

/-- A URL carried by no record is counted zero times. -/
theorem countUrl_eq_zero (feeds : List Feed) (u : String)
    (h : ¬ u ∈ feeds.map (fun f => f.originalUrl)) : countUrl feeds u = 0 := by
  unfold countUrl
  rw [List.length_eq_zero]
  rw [List.filter_eq_nil_iff]
  intro f hf
  simp only [decide_eq_true_eq]
  intro hfu
  exact h (List.mem_map.mpr ⟨f, hf, hfu⟩)

/-- The seed URL set only contains URLs of registry records. -/
theorem mem_activeUrls {feeds : List Feed} {u : String}
    (h : u ∈ activeUrls feeds) : u ∈ feeds.map (fun f => f.originalUrl) := by
  unfold activeUrls FeedManager.getActiveFeeds at h
  rcases List.mem_map.mp h with ⟨f, hf, hfu⟩
  exact List.mem_map.mpr ⟨f, List.mem_of_mem_filter hf, hfu⟩

/-- Appending an active feed extends the active URL list by its URL. -/
theorem activeUrls_append_active (feeds : List Feed) (f : Feed)
    (hf : f.status = .active) :
    activeUrls (feeds ++ [f]) = activeUrls feeds ++ [f.originalUrl] := by
  unfold activeUrls FeedManager.getActiveFeeds
  rw [List.filter_append, List.map_append]
  congr 1
  simp [hf]

/-- An eligible item whose title derivation cannot throw has a title. -/
theorem discoveredTitle_isSome {i : PublisherItem}
    (h : ¬ i.title = "" ∨ (jsURL i.feedUrl).isSome) :
    (discoveredTitle i).isSome := by
  unfold discoveredTitle
  by_cases ht : i.title = ""
  · rw [if_neg (by simp [ht])]
    rcases h with h | h
    · exact absurd ht h
    · rcases Option.isSome_iff_exists.mp h with ⟨parts, hp⟩
      rw [hp]
      rfl
  · rw [if_pos ht]
    rfl

/-- The seen set only grows along the item loop. -/
theorem seen_mono (now pub : String) :
    ∀ (items : List PublisherItem) (feeds : List Feed) (seen : List String) (u : String),
      u ∈ seen → u ∈ (discoverItems now pub items feeds seen).2
  | [], feeds, seen, u => fun h => h
  | i :: rest, feeds, seen, u => by
    intro h
    unfold discoverItems
    by_cases hg : ¬ i.feedUrl = "" ∧ i.medium = "music" ∧ ¬ seen.contains i.feedUrl
    · rw [if_pos hg]
      cases ht : discoveredTitle i with
      | some t =>
        exact seen_mono now pub rest _ (i.feedUrl :: seen) u (List.mem_cons_of_mem _ h)
      | none => exact h
    · rw [if_neg hg]
      exact seen_mono now pub rest feeds seen u h

/-- URLs already in the seen set are never registered again: the count
of any seen URL is unchanged by the rest of the pass. -/
theorem count_of_seen (now pub : String) :
    ∀ (items : List PublisherItem) (feeds : List Feed) (seen : List String) (u : String),
      u ∈ seen → countUrl (discoverItems now pub items feeds seen).1 u = countUrl feeds u
  | [], feeds, seen, u => fun _ => rfl
  | i :: rest, feeds, seen, u => by
    intro h
    unfold discoverItems
    by_cases hg : ¬ i.feedUrl = "" ∧ i.medium = "music" ∧ ¬ seen.contains i.feedUrl
    · rw [if_pos hg]
      have hne : ¬ i.feedUrl = u := by
        intro heq
        exact hg.2.2 (heq ▸ List.elem_eq_true_of_mem h)
      cases ht : discoveredTitle i with
      | some t =>
        rw [count_of_seen now pub rest _ (i.feedUrl :: seen) u (List.mem_cons_of_mem _ h)]
        rw [countUrl_append_single]
        simp [hne, mkDiscoveredFeed]
      | none => rfl
    · rw [if_neg hg]
      exact count_of_seen now pub rest feeds seen u h

/-- A URL not yet seen is registered exactly once when some eligible
item carries it (given that no title derivation throws), and never
otherwise. -/
theorem count_of_fresh (now pub : String) :
    ∀ (items : List PublisherItem) (feeds : List Feed) (seen : List String) (u : String),
      ¬ u ∈ seen →
      (∀ i ∈ items, eligible i → (¬ i.title = "" ∨ (jsURL i.feedUrl).isSome)) →
      countUrl (discoverItems now pub items feeds seen).1 u
        = countUrl feeds u
          + (if items.any (fun i => decide (eligible i) && decide (i.feedUrl = u)) then 1 else 0)
  | [], feeds, seen, u => by intro _ _; simp [discoverItems]
  | i :: rest, feeds, seen, u => by
    intro hu hsafe
    unfold discoverItems
    by_cases hg : ¬ i.feedUrl = "" ∧ i.medium = "music" ∧ ¬ seen.contains i.feedUrl
    · rw [if_pos hg]
      have hel : eligible i := ⟨hg.1, hg.2.1⟩
      cases ht : discoveredTitle i with
      | some t =>
        by_cases hiu : i.feedUrl = u
        · subst hiu
          rw [count_of_seen now pub rest _ _ i.feedUrl (List.mem_cons_self _ _)]
          rw [countUrl_append_single]
          have hany : (i :: rest).any (fun j => decide (eligible j) && decide (j.feedUrl = i.feedUrl)) = true := by
            simp only [List.any_cons, Bool.or_eq_true]
            left
            simp [hel]
          rw [hany]
          simp [mkDiscoveredFeed]
        · have hu2 : ¬ u ∈ i.feedUrl :: seen := by
            intro hmem
            rcases List.mem_cons.mp hmem with h1 | h1
            · exact hiu h1.symm
            · exact hu h1
          rw [count_of_fresh now pub rest _ (i.feedUrl :: seen) u hu2
            (fun j hj => hsafe j (List.mem_cons_of_mem i hj))]
          rw [countUrl_append_single]
          have hterm : (decide (eligible i) && decide (i.feedUrl = u)) = false := by
            simp [hiu]
          simp only [List.any_cons, hterm, Bool.false_or]
          simp [mkDiscoveredFeed, hiu]
      | none =>
        exfalso
        have := discoveredTitle_isSome (hsafe i (List.mem_cons_self _ _) hel)
        rw [ht] at this
        simp at this
    · rw [if_neg hg]
      have hterm : (decide (eligible i) && decide (i.feedUrl = u)) = false := by
        by_cases hel : eligible i
        · have hseen : seen.contains i.feedUrl = true := by
            rcases not_and.mp hg hel.1 with h2
            rcases not_and.mp h2 hel.2 with h3
            exact not_not.mp h3
          have hne : ¬ i.feedUrl = u := by
            intro heq
            exact hu (heq ▸ List.mem_of_elem_eq_true hseen)
          simp [hne]
        · simp [hel]
      rw [count_of_fresh now pub rest feeds seen u hu
        (fun j hj => hsafe j (List.mem_cons_of_mem i hj))]
      simp only [List.any_cons, hterm, Bool.false_or]

end BuildRss

namespace BuildRss

/-- Second-pass inertness: when the starting seen set has (as a set)
exactly the URLs that the first pass ends with, the pass registers
nothing, whatever registry it runs against. -/
theorem discoverItems_inert (now now2 pub pub2 : String) :
    ∀ (items : List PublisherItem) (feeds : List Feed) (seen : List String)
      (F : List Feed) (seen2 : List String),
      (∀ u, u ∈ seen2 ↔ u ∈ (discoverItems now pub items feeds seen).2) →
      (discoverItems now2 pub2 items F seen2).1 = F
  | [], feeds, seen, F, seen2 => by intro h; rfl
  | i :: rest, feeds, seen, F, seen2 => by
    intro hset
    unfold discoverItems at hset ⊢
    by_cases hg : ¬ i.feedUrl = "" ∧ i.medium = "music" ∧ ¬ seen.contains i.feedUrl
    · rw [if_pos hg] at hset
      cases ht : discoveredTitle i with
      | some t =>
        rw [ht] at hset
        have hin2 : i.feedUrl ∈ seen2 := by
          rw [hset i.feedUrl]
          exact seen_mono now pub rest _ (i.feedUrl :: seen) i.feedUrl (List.mem_cons_self _ _)
        rw [if_neg (by
          intro hg2
          exact hg2.2.2 (List.elem_eq_true_of_mem hin2))]
        exact discoverItems_inert now now2 pub pub2 rest _ (i.feedUrl :: seen) F seen2 hset
      | none =>
        rw [ht] at hset
        by_cases hg2 : ¬ i.feedUrl = "" ∧ i.medium = "music" ∧ ¬ seen2.contains i.feedUrl
        · rw [if_pos hg2]
        · rw [if_neg hg2]
          -- the second pass skips this item only if its URL is already
          -- seen, but then the first pass would have skipped it too
          exfalso
          rcases not_and.mp hg2 hg.1 with h2
          rcases not_and.mp h2 hg.2.1 with h3
          have hin2 : i.feedUrl ∈ seen2 := List.mem_of_elem_eq_true (not_not.mp h3)
          have hin : i.feedUrl ∈ seen := (hset i.feedUrl).mp hin2
          exact hg.2.2 (List.elem_eq_true_of_mem hin)
    · rw [if_neg hg] at hset
      by_cases hel : eligible i
      · have hseen : i.feedUrl ∈ seen := by
          rcases not_and.mp hg hel.1 with h2
          rcases not_and.mp h2 hel.2 with h3
          exact List.mem_of_elem_eq_true (not_not.mp h3)
        have hin2 : i.feedUrl ∈ seen2 := by
          rw [hset i.feedUrl]
          exact seen_mono now pub rest feeds seen i.feedUrl hseen
        rw [if_neg (by
          intro hg2
          exact hg2.2.2 (List.elem_eq_true_of_mem hin2))]
        exact discoverItems_inert now now2 pub pub2 rest feeds seen F seen2 hset
      · rw [if_neg (by
          intro hg2
          exact hel ⟨hg2.1, hg2.2.1⟩)]
        exact discoverItems_inert now now2 pub pub2 rest feeds seen F seen2 hset

/-- Along a pass whose seen set starts as the active URLs of its
registry, the final seen set is exactly the active URLs of the final
registry. -/
theorem seen_is_activeUrls (now pub : String) :
    ∀ (items : List PublisherItem) (feeds : List Feed) (seen : List String),
      (∀ u, u ∈ seen ↔ u ∈ activeUrls feeds) →
      ∀ u, u ∈ (discoverItems now pub items feeds seen).2
        ↔ u ∈ activeUrls (discoverItems now pub items feeds seen).1
  | [], feeds, seen => by
    intro h u
    exact h u
  | i :: rest, feeds, seen => by
    intro hinv u
    unfold discoverItems
    by_cases hg : ¬ i.feedUrl = "" ∧ i.medium = "music" ∧ ¬ seen.contains i.feedUrl
    · rw [if_pos hg]
      cases ht : discoveredTitle i with
      | some t =>
        apply seen_is_activeUrls now pub rest _ (i.feedUrl :: seen)
        intro v
        rw [activeUrls_append_active feeds (mkDiscoveredFeed now pub i t) rfl]
        simp only [List.mem_cons, List.mem_append, List.mem_singleton]
        rw [hinv v]
        unfold mkDiscoveredFeed
        simp only
        tauto
      | none => exact hinv u
    · rw [if_neg hg]
      exact seen_is_activeUrls now pub rest feeds seen hinv u

/-- C5 counterexample: discovery does not always register a
previously-unknown URL that appears in the manifest.  A manifest whose
first music item has no title and an unparsable URL aborts that
publisher pass, so the second, perfectly valid item is registered zero
times, not exactly once. -/
theorem C5_abort_skips_fresh_url :
    countUrl (discover "t" "https://p.example/pub.xml"
        [ { feedUrl := "notaurl", feedGuid := "", title := "", medium := "music" }
        , { feedUrl := "https://b.example/f.xml", feedGuid := "", title := "B", medium := "music" } ]
        [])
      "https://b.example/f.xml" = 0 := by decide

/-- C5 (amended): provided every eligible manifest item can have its
title derived (it carries a title or a parsable URL — otherwise the
throw aborts the rest of that manifest), a publisher pass registers a
previously-unknown URL exactly once when an eligible item carries it
(in particular a URL occurring twice yields one record) and zero times
otherwise; and — unconditionally — running the same pass a second time
with no intervening registry change registers nothing at all. -/
theorem C5_discover_once_and_idempotent (now now2 pub : String)
    (items : List PublisherItem) (feeds : List Feed) :
    ((∀ i ∈ items, eligible i → (¬ i.title = "" ∨ (jsURL i.feedUrl).isSome)) →
      ∀ u, ¬ u ∈ feeds.map (fun f => f.originalUrl) →
        countUrl (discover now pub items feeds) u
          = if items.any (fun i => decide (eligible i) && decide (i.feedUrl = u)) then 1 else 0)
    ∧ discover now2 pub items (discover now pub items feeds)
        = discover now pub items feeds := by
  constructor
  · intro hsafe u hu
    have hu2 : ¬ u ∈ activeUrls feeds := fun h => hu (mem_activeUrls h)
    unfold discover
    rw [count_of_fresh now pub items feeds (activeUrls feeds) u hu2 hsafe]
    rw [countUrl_eq_zero feeds u hu]
    simp
  · unfold discover
    apply discoverItems_inert now now2 pub pub
    intro u
    exact (seen_is_activeUrls now pub items feeds (activeUrls feeds) (fun _ => Iff.rfl) u).symm

/-- C5 witness: a manifest carrying the same fresh URL twice yields
exactly one new record for it. -/
theorem C5_discover_once_witness :
    countUrl (discover "t" "https://p.example/pub.xml"
        [ { feedUrl := "https://b.example/f.xml", feedGuid := "", title := "B", medium := "music" }
        , { feedUrl := "https://b.example/f.xml", feedGuid := "", title := "B", medium := "music" } ]
        [])
      "https://b.example/f.xml" = 1 := by
  have h := (C5_discover_once_and_idempotent "t" "t2" "https://p.example/pub.xml"
      [ { feedUrl := "https://b.example/f.xml", feedGuid := "", title := "B", medium := "music" }
      , { feedUrl := "https://b.example/f.xml", feedGuid := "", title := "B", medium := "music" } ]
      []).1 (by decide) "https://b.example/f.xml" (by decide)
  rw [h]
  decide

end BuildRss

namespace AlbumsService

/-- The albums that one dynamic aggregation pass extracts: one enriched
album per active album feed whose parse succeeds, in registry order. -/
def dynamicSuccesses (env : ServiceEnv) : List Album :=
  ((FeedManager.getActiveFeeds env.registry).filter (fun f => f.type = .album)).filterMap
    (fun f => match loopOutcome env.parse f with
      | .ok a => some (enrichAlbum a f)
      | _ => none)

/-- The per-feed error entries of one dynamic aggregation pass: one per
active album feed that throws, times out or returns no data. -/
def dynamicFailures (env : ServiceEnv) : List FeedError :=
  ((FeedManager.getActiveFeeds env.registry).filter (fun f => f.type = .album)).filterMap
    (fun f => match loopOutcome env.parse f with
      | .ok _ => none
      | .nodata => some { feedId := f.id, error := "No album data returned" }
      | .err m => some { feedId := errFeedId f, error := m })

/-- The parse loop splits its feed list into enriched successes and
per-feed errors. -/
theorem parseLoop_spec (parse : String → ParseOutcome) :
    ∀ feeds : List Feed,
      (parseLoop parse true feeds).1
          = feeds.filterMap (fun f => match loopOutcome parse f with
              | .ok a => some (enrichAlbum a f)
              | _ => none)
        ∧ (parseLoop parse true feeds).2
          = feeds.filterMap (fun f => match loopOutcome parse f with
              | .ok _ => none
              | .nodata => some { feedId := f.id, error := "No album data returned" }
              | .err m => some { feedId := errFeedId f, error := m })
  | [] => ⟨rfl, rfl⟩
  | f :: rest => by
    have ih := parseLoop_spec parse rest
    unfold parseLoop
    cases h : loopOutcome parse f with
    | ok a => simp [List.filterMap_cons, h, ih.1, ih.2]
    | nodata => simp [List.filterMap_cons, h, ih.1, ih.2]
    | err m => simp [List.filterMap_cons, h, ih.1, ih.2]

/-- An unavailable or empty static snapshot serves no albums. -/
theorem staticFile_empty {env : ServiceEnv} (now : Nat)
    (h : env.staticAlbums = none ∨ env.staticAlbums = some []) :
    (fetchFromStaticFile env now).albums = [] := by
  unfold fetchFromStaticFile
  rcases h with h | h <;> rw [h]

/-- The dynamic pass, when the registry has at least one active album
feed, returns exactly the loop result and caches it. -/
theorem fetchFromFeedManager_spec (env : ServiceEnv) (st : ServiceState) (now : Nat)
    (hfeeds : ¬ ((FeedManager.getActiveFeeds env.registry).filter (fun f => f.type = .album)) = []) :
    fetchFromFeedManager env st now none true
      = ({ albums := dynamicSuccesses env
         , count := (dynamicSuccesses env).length
         , timestamp := now
         , source := some "direct-rss-parsing"
         , errors := if (dynamicFailures env).isEmpty then none else some (dynamicFailures env) }
        , { memoryCache := some
              { albums := dynamicSuccesses env
              , count := (dynamicSuccesses env).length
              , timestamp := now
              , source := some "direct-rss-parsing"
              , errors := if (dynamicFailures env).isEmpty then none else some (dynamicFailures env) }
          , cacheTimestamp := now }) := by
  have hne : ¬ FeedManager.getActiveFeeds env.registry = [] := by
    intro h
    apply hfeeds
    rw [h]
    rfl
  unfold fetchFromFeedManager
  rw [if_neg (by simpa [List.isEmpty_iff] using hne)]
  simp only
  rw [if_neg (by simpa [List.isEmpty_iff] using hfeeds)]
  have hspec := parseLoop_spec env.parse
    ((FeedManager.getActiveFeeds env.registry).filter (fun f => f.type = .album))
  unfold dynamicSuccesses dynamicFailures
  rw [← hspec.1, ← hspec.2]
  by_cases he : (parseLoop env.parse true
      ((FeedManager.getActiveFeeds env.registry).filter (fun f => f.type = .album))).2.isEmpty
  · simp [he]
  · simp [he]

end AlbumsService

/-- C3: `AlbumsService.fetchAlbums` is a total function into result
objects — no exception can escape to its caller — and on the default
auto source, with an empty in-memory cache, an unavailable-or-empty
static snapshot and at least one active album feed, it returns exactly
the albums the dynamic pass parsed plus one `errors` entry per failed
feed (so a pass with three successes and one failure yields exactly
three albums and a one-entry errors array). -/
theorem C3_fetchAlbums_auto_partial (env : AlbumsService.ServiceEnv)
    (st : AlbumsService.ServiceState) (now : Nat)
    (hcache : st.memoryCache = none)
    (hstatic : env.staticAlbums = none ∨ env.staticAlbums = some [])
    (hfeeds : ¬ ((FeedManager.getActiveFeeds env.registry).filter (fun f => f.type = .album)) = []) :
    (AlbumsService.fetchAlbums env st now {}).1.albums = AlbumsService.dynamicSuccesses env
    ∧ (AlbumsService.fetchAlbums env st now {}).1.count
        = (AlbumsService.dynamicSuccesses env).length
    ∧ (AlbumsService.fetchAlbums env st now {}).1.errors
        = (if (AlbumsService.dynamicFailures env).isEmpty then none
           else some (AlbumsService.dynamicFailures env)) := by
  have hempty := AlbumsService.staticFile_empty now hstatic
  have hd := AlbumsService.fetchFromFeedManager_spec env st now hfeeds
  have hroute : AlbumsService.fetchAlbums env st now {}
      = AlbumsService.fetchAuto env st now false none true := by
    unfold AlbumsService.fetchAlbums
    simp [hcache]
  rw [hroute]
  unfold AlbumsService.fetchAuto
  simp only [hd, hempty]
  by_cases hlen : (AlbumsService.dynamicSuccesses env).length > 0
  · simp [hlen]
  · simp [hlen, hempty]

/-- An active album feed for the C3 witness registry. -/
def c3Feed (i u : String) : Feed :=
  { id := i, originalUrl := u, type := .album, title := i, priority := .core
  , status := .active, addedAt := "t", lastUpdated := "t" }

/-- The C3 witness environment: no static snapshot, four active album
feeds of which three parse and one throws. -/
def c3Env : AlbumsService.ServiceEnv :=
  { registry := [c3Feed "f1" "https://e/1", c3Feed "f2" "https://e/2"
                , c3Feed "f3" "https://e/3", c3Feed "f4" "https://e/4"]
  , dbUrls := []
  , staticAlbums := none
  , staticCachedAlbums := none
  , parse := fun u => if u = "https://e/4" then .err "boom" else .ok { title := "A" } }

/-- C3 witness: the specified fallback scenario — static snapshot with
zero albums, dynamic source with three albums and one feed error —
returns exactly three albums and a one-entry errors array. -/
theorem C3_fetchAlbums_auto_partial_witness :
    (AlbumsService.fetchAlbums c3Env AlbumsService.ServiceState.initial 1000 {}).1.albums.length = 3
    ∧ (AlbumsService.fetchAlbums c3Env AlbumsService.ServiceState.initial 1000 {}).1.errors
        = some [{ feedId := "f4", error := "boom" }] := by
  have h := C3_fetchAlbums_auto_partial c3Env AlbumsService.ServiceState.initial 1000 rfl
    (Or.inl rfl) (by decide)
  refine ⟨?_, ?_⟩
  · rw [h.1]; decide
  · rw [h.2.2]; decide

namespace AlbumsService

/-- The album list an auto-source aggregation serves, as a function of
the environment alone: the static snapshot when it has albums, else the
dynamic parse of the active album feeds (empty when there are none). -/
def autoAlbums (env : ServiceEnv) : List Album :=
  if (env.staticAlbums.getD []).length > 0 then env.staticAlbums.getD []
  else if ((FeedManager.getActiveFeeds env.registry).filter (fun f => f.type = .album)) = [] then []
  else dynamicSuccesses env

/-- The albums of the static result, spelled out. -/
theorem staticFile_albums (env : ServiceEnv) (now : Nat) :
    (fetchFromStaticFile env now).albums = env.staticAlbums.getD [] := by
  unfold fetchFromStaticFile
  cases env.staticAlbums <;> rfl

/-- A default-options `fetchAlbums` call on an empty cache serves
`autoAlbums env` — independently of the clock — and either leaves the
service state untouched or stores exactly the result it returns, with
the clock as the cache stamp. -/
theorem fetchAlbums_auto_shape (env : ServiceEnv) (st : ServiceState) (now : Nat)
    (hc : st.memoryCache = none) :
    (fetchAlbums env st now {}).1.albums = autoAlbums env
    ∧ ((fetchAlbums env st now {}).2 = st
       ∨ (fetchAlbums env st now {}).2
           = { memoryCache := some (fetchAlbums env st now {}).1, cacheTimestamp := now }) := by
  have hroute : fetchAlbums env st now {} = fetchAuto env st now false none true := by
    unfold fetchAlbums
    simp [hc]
  rw [hroute]
  unfold fetchAuto
  by_cases hs : (env.staticAlbums.getD []).length > 0
  · rw [if_pos (by trivial)]
    simp only [staticFile_albums]
    rw [if_pos hs]
    refine ⟨?_, Or.inl rfl⟩
    rw [staticFile_albums]
    unfold autoAlbums
    rw [if_pos hs]
  · have hempty : (fetchFromStaticFile env now).albums = [] := by
      rw [staticFile_albums]
      cases h : (env.staticAlbums.getD []) with
      | nil => rfl
      | cons a l => rw [h] at hs; simp at hs
    rw [if_pos (by trivial)]
    simp only [hempty, List.length_nil, gt_iff_lt, Nat.lt_irrefl, if_false]
    by_cases ha : ((FeedManager.getActiveFeeds env.registry).filter (fun f => f.type = .album)) = []
    · have hd : (fetchFromFeedManager env st now none true).1.albums = []
          ∧ (fetchFromFeedManager env st now none true).2 = st := by
        unfold fetchFromFeedManager
        by_cases hfe : FeedManager.getActiveFeeds env.registry = []
        · rw [if_pos (by simpa [List.isEmpty_iff] using hfe)]
          simp [hempty]
        · rw [if_neg (by simpa [List.isEmpty_iff] using hfe)]
          simp only
          rw [if_pos (by simpa [List.isEmpty_iff] using ha)]
          simp [hempty]
      simp only [hd.1, hd.2, List.length_nil, gt_iff_lt, Nat.lt_irrefl, if_false,
        hempty]
      refine ⟨?_, Or.inl (by trivial)⟩
      unfold autoAlbums
      rw [if_neg hs, if_pos ha]
    · have hd := fetchFromFeedManager_spec env st now ha
      simp only [hd, hempty, List.length_nil, gt_iff_lt, Nat.lt_irrefl, if_false]
      by_cases hlen : (dynamicSuccesses env).length > 0
      · rw [if_pos hlen]
        refine ⟨?_, Or.inr rfl⟩
        unfold autoAlbums
        rw [if_neg hs, if_neg ha]
      · rw [if_neg hlen]
        refine ⟨?_, Or.inr rfl⟩
        unfold autoAlbums
        rw [if_neg hs, if_neg ha]

/-- A fresh-enough memory cache entry is served back directly, tagged
with `cached` and its rounded age. -/
theorem fetchAlbums_cache_hit (env : ServiceEnv) (st : ServiceState) (now : Nat)
    (r : AlbumsResult) (hm : st.memoryCache = some r)
    (h : now - st.cacheTimestamp < CACHE_TTL) :
    fetchAlbums env st now {}
      = ({ r with
            cached := some true
            cacheAge := some ((now - st.cacheTimestamp + 500) / 1000) }, st) := by
  unfold fetchAlbums
  simp [hm, h]

end AlbumsService

/-- The C7 witness/counterexample environment whose first call is served
by the dynamic path (no static snapshot, one active album feed). -/
def c7DynEnv : AlbumsService.ServiceEnv :=
  { registry := [c3Feed "g1" "https://e/g1"]
  , dbUrls := []
  , staticAlbums := none
  , staticCachedAlbums := none
  , parse := fun _ => .ok { title := "G" } }

/-- The C7 counterexample environment whose calls are served from the
static snapshot (which never populates the memory cache). -/
def c7StaticEnv : AlbumsService.ServiceEnv :=
  { registry := []
  , dbUrls := []
  , staticAlbums := some [{ title := "S", feedId := "s", feedUrl := "s", lastUpdated := "s" }]
  , staticCachedAlbums := none
  , parse := fun _ => .nodata }

/-- C7 counterexample: two default `fetchAlbums` calls within the TTL do
not always give a second call with `cached: true` and a nonzero
`cacheAge`.  Served from the static snapshot, the first call never
populates the memory cache, so the second call is not marked cached at
all; and on the dynamic path, a second call less than 500ms after the
first rounds its `cacheAge` to zero. -/
theorem C7_cache_counterexample :
    ¬ (AlbumsService.fetchAlbums c7StaticEnv
        (AlbumsService.fetchAlbums c7StaticEnv AlbumsService.ServiceState.initial 0 {}).2
        60000 {}).1.cached = some true
    ∧ (AlbumsService.fetchAlbums c7DynEnv
        (AlbumsService.fetchAlbums c7DynEnv AlbumsService.ServiceState.initial 1000 {}).2
        1000 {}).1.cached = some true
    ∧ (AlbumsService.fetchAlbums c7DynEnv
        (AlbumsService.fetchAlbums c7DynEnv AlbumsService.ServiceState.initial 1000 {}).2
        1000 {}).1.cacheAge = some 0 := by
  refine ⟨by decide, by decide, by decide⟩

/-- C7 (amended): two default-option `fetchAlbums` calls within the TTL
window, starting from an empty cache, return identical album lists; and
whenever the first call populated the in-memory cache (the dynamic
path), the second call reports `cached: true` with
`cacheAge = round(elapsed-ms / 1000)` — which is zero below 500ms. -/
theorem C7_cache_behavior (env : AlbumsService.ServiceEnv)
    (st0 : AlbumsService.ServiceState) (t1 t2 : Nat)
    (h0 : st0.memoryCache = none) (httl : t2 - t1 < AlbumsService.CACHE_TTL) :
    (AlbumsService.fetchAlbums env (AlbumsService.fetchAlbums env st0 t1 {}).2 t2 {}).1.albums
        = (AlbumsService.fetchAlbums env st0 t1 {}).1.albums
    ∧ ((AlbumsService.fetchAlbums env st0 t1 {}).2.memoryCache.isSome →
        (AlbumsService.fetchAlbums env (AlbumsService.fetchAlbums env st0 t1 {}).2 t2 {}).1.cached
            = some true
        ∧ (AlbumsService.fetchAlbums env (AlbumsService.fetchAlbums env st0 t1 {}).2 t2 {}).1.cacheAge
            = some ((t2 - t1 + 500) / 1000)) := by
  have h1 := AlbumsService.fetchAlbums_auto_shape env st0 t1 h0
  rcases h1.2 with hst | hst
  · rw [hst]
    have h2 := AlbumsService.fetchAlbums_auto_shape env st0 t2 h0
    refine ⟨?_, ?_⟩
    · rw [h2.1, h1.1]
    · rw [h0]
      intro hcontra
      simp at hcontra
  · rw [hst]
    have hhit := AlbumsService.fetchAlbums_cache_hit env
      ⟨some (AlbumsService.fetchAlbums env st0 t1 {}).1, t1⟩ t2
      (AlbumsService.fetchAlbums env st0 t1 {}).1 rfl (by simpa using httl)
    rw [hhit]
    exact ⟨rfl, fun _ => ⟨rfl, rfl⟩⟩

/-- C7 witness: on the dynamic environment, a second call one minute
after the first serves the identical albums, marked cached. -/
theorem C7_cache_behavior_witness :
    (AlbumsService.fetchAlbums c7DynEnv
        (AlbumsService.fetchAlbums c7DynEnv AlbumsService.ServiceState.initial 1000 {}).2
        61000 {}).1.albums
      = (AlbumsService.fetchAlbums c7DynEnv AlbumsService.ServiceState.initial 1000 {}).1.albums
    ∧ (AlbumsService.fetchAlbums c7DynEnv
        (AlbumsService.fetchAlbums c7DynEnv AlbumsService.ServiceState.initial 1000 {}).2
        61000 {}).1.cached = some true := by
  have h := C7_cache_behavior c7DynEnv AlbumsService.ServiceState.initial 1000 61000 rfl (by decide)
  exact ⟨h.1, (h.2 (by decide)).1⟩

namespace AlbumRoute

/-- Setting a cache key makes lookups of that key return the entry. -/
theorem cacheGet_cacheSet (m : AlbumCache) (k : String) (e : CacheEntry) :
    cacheGet (cacheSet m k e) k = some e := by
  unfold cacheGet cacheSet
  simp

/-- A fresh cache entry short-circuits the whole handler: the cached
album is served with no registry read and no parse. -/
theorem GET_cache_hit (env : RouteEnv) (cache : AlbumCache) (now : Nat)
    (nowIso albumId : String) (e : CacheEntry)
    (hc : cacheGet cache albumId = some e)
    (hfresh : now - e.timestamp < ALBUM_CACHE_TTL) :
    GET env cache now nowIso albumId
      = (.cachedAlbum e.data, cache, { readRegistry := false, parseCalls := 0 }) := by
  unfold GET
  rw [hc]
  simp [hfresh]

end AlbumRoute

/-- C1: an identifier matching an active publisher feed — by exact id or
by the slug of its title — makes the route answer with the explicit
publisher signal (the 400 this-is-not-an-album response), performing no
feed parse at all and leaving the album cache untouched, whatever album
feeds, parses or static snapshot entries exist.  (The hypothesis on the
cache excludes a fresh cache hit, which is served before any resolution
logic runs.) -/
theorem C1_publisher_short_circuit (env : AlbumRoute.RouteEnv)
    (cache : AlbumRoute.AlbumCache) (now : Nat) (nowIso albumId : String)
    (hmiss : ∀ e, AlbumRoute.cacheGet cache albumId = some e →
      ¬ now - e.timestamp < AlbumRoute.ALBUM_CACHE_TTL)
    (hpub : ∃ f ∈ FeedManager.getActiveFeeds env.registry,
      f.type = .publisher ∧ (f.id = albumId ∨ generateSlug f.title = jsToLowerStr albumId)) :
    (AlbumRoute.GET env cache now nowIso albumId).1.isPublisherRedirect = true
    ∧ (AlbumRoute.GET env cache now nowIso albumId).2.2.parseCalls = 0
    ∧ (AlbumRoute.GET env cache now nowIso albumId).2.1 = cache := by
  obtain ⟨f, hf, htype, hmatch⟩ := hpub
  have huncached : AlbumRoute.GET env cache now nowIso albumId
      = AlbumRoute.GET.GETuncached env cache now nowIso albumId := by
    unfold AlbumRoute.GET
    cases hc : AlbumRoute.cacheGet cache albumId with
    | none => rfl
    | some e => simp [hmiss e hc]
  rw [huncached]
  have hpf : ∃ pf, ((FeedManager.getActiveFeeds env.registry).filter
      (fun f => f.type = .publisher)).find?
        (fun f => f.id = albumId ∨ generateSlug f.title = jsToLowerStr albumId) = some pf := by
    cases hfo : ((FeedManager.getActiveFeeds env.registry).filter
        (fun f => f.type = .publisher)).find?
          (fun f => f.id = albumId ∨ generateSlug f.title = jsToLowerStr albumId) with
    | some pf => exact ⟨pf, rfl⟩
    | none =>
      exfalso
      rw [List.find?_eq_none] at hfo
      have h2 := hfo f (List.mem_filter.mpr ⟨hf, by simp [htype]⟩)
      simp only [decide_eq_true_eq] at h2
      exact h2 hmatch
  obtain ⟨pf, hpf⟩ := hpf
  unfold AlbumRoute.GET.GETuncached
  simp only [hpf]
  refine ⟨?_, ?_, ?_⟩ <;> first | rfl | trivial

/-- The publisher feed of the C1 witness registry. -/
def c1PublisherFeed : Feed :=
  { id := "x", originalUrl := "https://p.example/pub.xml", type := .publisher
  , title := "X Band", priority := .core, status := .active
  , addedAt := "t0", lastUpdated := "t0" }

/-- An album feed whose parsed title also slugs to `x`. -/
def c1AlbumFeed : Feed :=
  { id := "alb1", originalUrl := "https://a.example/a.xml", type := .album
  , title := "X", priority := .core, status := .active
  , addedAt := "t0", lastUpdated := "t0" }

/-- The C1/C10 witness environment: a publisher feed with id `x`, an
album feed whose album title is `x`, and a static entry titled `x`. -/
def c1Env : AlbumRoute.RouteEnv :=
  { registry := [c1PublisherFeed, c1AlbumFeed]
  , parse := fun _ => .ok { title := "x" }
  , staticAlbums := some [{ title := "x", feedId := "s", feedUrl := "s", lastUpdated := "s" }] }

/-- C1 witness: resolving `x` against that registry answers with the
publisher signal and zero parses, although an album feed and a static
entry both match the same slug. -/
theorem C1_publisher_short_circuit_witness :
    (AlbumRoute.GET c1Env [] 0 "iso" "x").1.isPublisherRedirect = true
    ∧ (AlbumRoute.GET c1Env [] 0 "iso" "x").2.2.parseCalls = 0
    ∧ (AlbumRoute.GET c1Env [] 0 "iso" "x").2.1 = [] :=
  C1_publisher_short_circuit c1Env [] 0 "iso" "x"
    (fun e he => by simp [AlbumRoute.cacheGet] at he)
    ⟨c1PublisherFeed, by decide, by decide, Or.inl (by decide)⟩

namespace AlbumRoute

/-- Whenever the resolution part of the handler answers `albumOk`, it
has stored exactly that album in the cache under the requested id. -/
theorem GETuncached_albumOk_cache (env : RouteEnv) (cache : AlbumCache) (now : Nat)
    (nowIso albumId : String) (a : Album)
    (h : (GET.GETuncached env cache now nowIso albumId).1 = .albumOk a) :
    (GET.GETuncached env cache now nowIso albumId).2.1
      = cacheSet cache albumId { data := a, timestamp := now } := by
  unfold GET.GETuncached at h ⊢
  cases hpub : ((FeedManager.getActiveFeeds env.registry).filter
      (fun f => f.type = .publisher)).find?
        (fun f => f.id = albumId ∨ generateSlug f.title = jsToLowerStr albumId) with
  | some pf => simp only [hpub] at h; simp at h
  | none =>
    simp only [hpub] at h ⊢
    cases hdir : ((FeedManager.getActiveFeeds env.registry).filter
        (fun f => f.type = .album)).find? (fun f => f.id = albumId) with
    | some f =>
      simp only [hdir] at h ⊢
      cases hp : env.parse f.originalUrl with
      | ok a0 =>
        simp only [hp] at h ⊢
        simp only [RouteResponse.albumOk.injEq] at h
        rw [h]
      | nodata => simp only [hp] at h; simp at h
      | err m => simp only [hp] at h; simp at h
    | none =>
      simp only [hdir] at h ⊢
      cases hts : titleSearch env.parse now albumId
          ((FeedManager.getActiveFeeds env.registry).filter (fun f => f.type = .album)) with
      | mk fst n =>
        cases fst with
        | some pr =>
          obtain ⟨f, a0⟩ := pr
          simp only [hts] at h ⊢
          simp only [RouteResponse.albumOk.injEq] at h
          rw [h]
        | none =>
          simp only [hts] at h
          split at h
          · split at h
            · simp at h
            · simp at h
          · simp at h

/-- A handler call answering `albumOk` passed the cache check and ran
the resolution logic. -/
theorem GET_albumOk_uncached (env : RouteEnv) (cache : AlbumCache) (now : Nat)
    (nowIso albumId : String) (a : Album)
    (h : (GET env cache now nowIso albumId).1 = .albumOk a) :
    GET env cache now nowIso albumId = GET.GETuncached env cache now nowIso albumId := by
  unfold GET at h ⊢
  cases hc : cacheGet cache albumId with
  | none => rfl
  | some e =>
    rw [hc] at h
    by_cases hf : now - e.timestamp < ALBUM_CACHE_TTL
    · exfalso
      simp [hf] at h
    · simp [hf]

end AlbumRoute

/-- C10: after the route resolves an identifier to an album through a
live feed parse, that album sits in the in-memory cache under exactly
that identifier; a second request for the same identifier within the
ten-minute TTL is answered from the cache — marked `cached` — with no
registry read and no feed parse, leaving the cache unchanged. -/
theorem C10_route_cache (env : AlbumRoute.RouteEnv) (cache : AlbumRoute.AlbumCache)
    (now : Nat) (nowIso nowIso2 albumId : String) (a : Album) (t2 : Nat)
    (h1 : (AlbumRoute.GET env cache now nowIso albumId).1 = .albumOk a)
    (hfresh : t2 - now < AlbumRoute.ALBUM_CACHE_TTL) :
    AlbumRoute.cacheGet (AlbumRoute.GET env cache now nowIso albumId).2.1 albumId
      = some { data := a, timestamp := now }
    ∧ AlbumRoute.GET env (AlbumRoute.GET env cache now nowIso albumId).2.1 t2 nowIso2 albumId
      = (.cachedAlbum a, (AlbumRoute.GET env cache now nowIso albumId).2.1,
         { readRegistry := false, parseCalls := 0 }) := by
  have hGU := AlbumRoute.GET_albumOk_uncached env cache now nowIso albumId a h1
  have h1u : (AlbumRoute.GET.GETuncached env cache now nowIso albumId).1 = .albumOk a := by
    rw [← hGU]
    exact h1
  have hset := AlbumRoute.GETuncached_albumOk_cache env cache now nowIso albumId a h1u
  have hget : AlbumRoute.cacheGet (AlbumRoute.GET env cache now nowIso albumId).2.1 albumId
      = some { data := a, timestamp := now } := by
    rw [hGU, hset]
    exact AlbumRoute.cacheGet_cacheSet cache albumId { data := a, timestamp := now }
  refine ⟨hget, ?_⟩
  exact AlbumRoute.GET_cache_hit env (AlbumRoute.GET env cache now nowIso albumId).2.1 t2
    nowIso2 albumId { data := a, timestamp := now } hget (by simpa using hfresh)

/-- The album the C10 witness resolves and caches. -/
def c10Album : Album :=
  { title := "x", feedId := "alb1", feedUrl := "https://a.example/a.xml", lastUpdated := "t0" }

/-- C10 witness: a concrete first call resolves `alb1` by direct feed-id
match and live parse; one minute later the same identifier is served
from the cache with no registry read and no parses. -/
theorem C10_route_cache_witness :
    AlbumRoute.cacheGet (AlbumRoute.GET c1Env [] 0 "iso" "alb1").2.1 "alb1"
      = some { data := c10Album, timestamp := 0 }
    ∧ AlbumRoute.GET c1Env (AlbumRoute.GET c1Env [] 0 "iso" "alb1").2.1 60000 "iso2" "alb1"
      = (.cachedAlbum c10Album, (AlbumRoute.GET c1Env [] 0 "iso" "alb1").2.1,
         { readRegistry := false, parseCalls := 0 }) :=
  C10_route_cache c1Env [] 0 "iso" "iso2" "alb1" c10Album 60000 (by decide) (by decide)
